import Mathlib

/-!
Verification development for the cecdesk rust-core engine.

Shallow embedding of the modules referenced by the specification:
`security.rs` (AES-256-GCM envelopes, session-key rotation, replay
detection, brute-force tracking), `screen_capture.rs` (adaptive bitrate),
`session_manager.rs` (session state machine, permission requests),
`access_control.rs` (access codes) and `network.rs` (quality
classification).

Modelling conventions:
- `std::time::Instant` timestamps become `Nat` values (`Instant::elapsed`
  and `Instant - Duration` saturate at zero in Rust, which matches
  truncated `Nat` subtraction).
- `HashMap` becomes an association list with `lookupA`/`insertA`/`removeA`
  (insert replaces the existing binding, as `HashMap::insert` does).
- Randomness (`OsRng` nonces and keys, UUIDs) becomes explicit parameters.
- `u8`/`u32`/`u64` become `Nat`; wrap-around is modelled explicitly where
  the code can actually wrap.
- `f32` values become the exact rationals they denote; `f32` arithmetic is
  modelled by `roundF32` (round to nearest, ties to even, binary32
  precision), which is exact for the normal-range values these modules
  produce.
-/

namespace Cecdesk

/-! ## Association-list model of `HashMap` -/

/-- `HashMap::get` on an association list. -/
def lookupA {α : Type} (l : List (String × α)) (k : String) : Option α :=
  match l with
  | [] => none
  | (k', v) :: rest => if k' = k then some v else lookupA rest k

/-- `HashMap::insert`: replaces the binding of `k` if present, else appends. -/
def insertA {α : Type} (l : List (String × α)) (k : String) (v : α) :
    List (String × α) :=
  match l with
  | [] => [(k, v)]
  | (k', v') :: rest =>
    if k' = k then (k', v) :: rest else (k', v') :: insertA rest k v

/-- `HashMap::remove`. -/
def removeA {α : Type} (l : List (String × α)) (k : String) :
    List (String × α) :=
  match l with
  | [] => []
  | (k', v') :: rest =>
    if k' = k then rest else (k', v') :: removeA rest k

theorem lookupA_insertA_self {α : Type} (l : List (String × α)) (k : String)
    (v : α) : lookupA (insertA l k v) k = some v := by
  induction l with
  | nil => simp [insertA, lookupA]
  | cons hd tl ih =>
    obtain ⟨k', v'⟩ := hd
    by_cases h : k' = k
    · simp [insertA, lookupA, h]
    · simp [insertA, lookupA, h, ih]

theorem lookupA_insertA_ne {α : Type} (l : List (String × α)) (k k' : String)
    (v : α) (h : k ≠ k') : lookupA (insertA l k v) k' = lookupA l k' := by
  induction l with
  | nil => simp [insertA, lookupA, h]
  | cons hd tl ih =>
    obtain ⟨k0, v0⟩ := hd
    by_cases h0 : k0 = k
    · subst h0; simp [insertA, lookupA, h]
    · simp [insertA, lookupA, h0, ih]

theorem lookupA_eq_none {α : Type} (l : List (String × α)) (k : String)
    (h : k ∉ l.map Prod.fst) : lookupA l k = none := by
  induction l with
  | nil => rfl
  | cons hd tl ih =>
    obtain ⟨k0, v0⟩ := hd
    simp only [List.map_cons, List.mem_cons] at h
    push_neg at h
    have hk0 : ¬ k0 = k := fun hc => h.1 hc.symm
    simp [lookupA, hk0, ih h.2]

theorem lookupA_removeA_self {α : Type} (l : List (String × α)) (k : String)
    (hnd : (l.map Prod.fst).Nodup) : lookupA (removeA l k) k = none := by
  induction l with
  | nil => rfl
  | cons hd tl ih =>
    obtain ⟨k0, v0⟩ := hd
    simp only [List.map_cons, List.nodup_cons] at hnd
    by_cases h0 : k0 = k
    · subst h0
      simp only [removeA, if_pos rfl]
      exact lookupA_eq_none tl k0 hnd.1
    · simp [removeA, h0, lookupA, ih hnd.2]

theorem lookupA_removeA_ne {α : Type} (l : List (String × α)) (k k' : String)
    (h : k ≠ k') : lookupA (removeA l k) k' = lookupA l k' := by
  induction l with
  | nil => rfl
  | cons hd tl ih =>
    obtain ⟨k0, v0⟩ := hd
    by_cases h0 : k0 = k
    · subst h0
      simp [removeA, lookupA, h]
    · simp [removeA, h0, lookupA, ih]

/-! ## AES-256 block cipher (from the `aes` crate used by `security.rs`)

The `aes_gcm::Aes256Gcm` cipher used in `encrypt_with_aes_gcm` /
`decrypt_with_aes_gcm`.  Bytes are `Nat`s below 256; a block is 16 bytes in
the standard AES input order (column `c` of the state is bytes
`4c..4c+3`).  Validated below against the FIPS-197 AES-256 vector and the
NIST GCM test vectors. -/

/-- The AES S-box packed as one natural number: byte `i` sits at bit `8*i`. -/
def sboxPacked : Nat :=
  0x16bb54b00f2d99416842e6bf0d89a18cdf2855cee9871e9b948ed9691198f8e19e1dc186b95735610ef6034866b53e708a8bbd4b1f74dde8c6b4a61c2e2578ba08ae7a65eaf4566ca94ed58d6d37c8e779e4959162acd3c25c2406490a3a32e0db0b5ede14b8ee4688902a22dc4f816073195d643d7ea7c41744975fec130ccdd2f3ff1021dab6bcf5389d928f40a351a89f3c507f02f94585334d43fbaaefd0cf584c4a39becb6a5bb1fc20ed00d153842fe329b3d63b52a05a6e1b1a2c830975b227ebe28012079a059618c323c7041531d871f1e5a534ccf73f362693fdb7c072a49cafa2d4adf04759fa7dc982ca76abd7fe2b670130c56f6bf27b777c63

/-- AES S-box lookup. -/
def sbox (b : Nat) : Nat := sboxPacked / 256 ^ b % 256

/-- GF(2^8) doubling (`xtime`), for MixColumns. -/
def xtime (a : Nat) : Nat := if a < 128 then 2 * a else (2 * a) ^^^ 0x11B

/-- One 16-byte AES state / block. -/
structure AesBlock where
  s0 : Nat
  s1 : Nat
  s2 : Nat
  s3 : Nat
  s4 : Nat
  s5 : Nat
  s6 : Nat
  s7 : Nat
  s8 : Nat
  s9 : Nat
  s10 : Nat
  s11 : Nat
  s12 : Nat
  s13 : Nat
  s14 : Nat
  s15 : Nat
  deriving DecidableEq, Repr

/-- Build a block from a byte list (missing bytes default to 0). -/
def blockOfBytes (bs : List Nat) : AesBlock :=
  ⟨bs.getD 0 0, bs.getD 1 0, bs.getD 2 0, bs.getD 3 0,
   bs.getD 4 0, bs.getD 5 0, bs.getD 6 0, bs.getD 7 0,
   bs.getD 8 0, bs.getD 9 0, bs.getD 10 0, bs.getD 11 0,
   bs.getD 12 0, bs.getD 13 0, bs.getD 14 0, bs.getD 15 0⟩

/-- Serialize a block back to its 16 bytes. -/
def blockBytes (b : AesBlock) : List Nat :=
  [b.s0, b.s1, b.s2, b.s3, b.s4, b.s5, b.s6, b.s7,
   b.s8, b.s9, b.s10, b.s11, b.s12, b.s13, b.s14, b.s15]

@[simp] theorem length_blockBytes (b : AesBlock) : (blockBytes b).length = 16 := rfl

/-- SubBytes. -/
def subBytesB (b : AesBlock) : AesBlock :=
  ⟨sbox b.s0, sbox b.s1, sbox b.s2, sbox b.s3,
   sbox b.s4, sbox b.s5, sbox b.s6, sbox b.s7,
   sbox b.s8, sbox b.s9, sbox b.s10, sbox b.s11,
   sbox b.s12, sbox b.s13, sbox b.s14, sbox b.s15⟩

/-- ShiftRows on the flat state (byte `4c+r` is state row `r`, column `c`). -/
def shiftRowsB (b : AesBlock) : AesBlock :=
  ⟨b.s0, b.s5, b.s10, b.s15,
   b.s4, b.s9, b.s14, b.s3,
   b.s8, b.s13, b.s2, b.s7,
   b.s12, b.s1, b.s6, b.s11⟩

/-- MixColumns. -/
def mixColumnsB (b : AesBlock) : AesBlock :=
  ⟨xtime b.s0 ^^^ (xtime b.s1 ^^^ b.s1) ^^^ b.s2 ^^^ b.s3,
   b.s0 ^^^ xtime b.s1 ^^^ (xtime b.s2 ^^^ b.s2) ^^^ b.s3,
   b.s0 ^^^ b.s1 ^^^ xtime b.s2 ^^^ (xtime b.s3 ^^^ b.s3),
   (xtime b.s0 ^^^ b.s0) ^^^ b.s1 ^^^ b.s2 ^^^ xtime b.s3,
   xtime b.s4 ^^^ (xtime b.s5 ^^^ b.s5) ^^^ b.s6 ^^^ b.s7,
   b.s4 ^^^ xtime b.s5 ^^^ (xtime b.s6 ^^^ b.s6) ^^^ b.s7,
   b.s4 ^^^ b.s5 ^^^ xtime b.s6 ^^^ (xtime b.s7 ^^^ b.s7),
   (xtime b.s4 ^^^ b.s4) ^^^ b.s5 ^^^ b.s6 ^^^ xtime b.s7,
   xtime b.s8 ^^^ (xtime b.s9 ^^^ b.s9) ^^^ b.s10 ^^^ b.s11,
   b.s8 ^^^ xtime b.s9 ^^^ (xtime b.s10 ^^^ b.s10) ^^^ b.s11,
   b.s8 ^^^ b.s9 ^^^ xtime b.s10 ^^^ (xtime b.s11 ^^^ b.s11),
   (xtime b.s8 ^^^ b.s8) ^^^ b.s9 ^^^ b.s10 ^^^ xtime b.s11,
   xtime b.s12 ^^^ (xtime b.s13 ^^^ b.s13) ^^^ b.s14 ^^^ b.s15,
   b.s12 ^^^ xtime b.s13 ^^^ (xtime b.s14 ^^^ b.s14) ^^^ b.s15,
   b.s12 ^^^ b.s13 ^^^ xtime b.s14 ^^^ (xtime b.s15 ^^^ b.s15),
   (xtime b.s12 ^^^ b.s12) ^^^ b.s13 ^^^ b.s14 ^^^ xtime b.s15⟩

/-- AddRoundKey. -/
def addRoundKeyB (b rk : AesBlock) : AesBlock :=
  ⟨b.s0 ^^^ rk.s0, b.s1 ^^^ rk.s1, b.s2 ^^^ rk.s2, b.s3 ^^^ rk.s3,
   b.s4 ^^^ rk.s4, b.s5 ^^^ rk.s5, b.s6 ^^^ rk.s6, b.s7 ^^^ rk.s7,
   b.s8 ^^^ rk.s8, b.s9 ^^^ rk.s9, b.s10 ^^^ rk.s10, b.s11 ^^^ rk.s11,
   b.s12 ^^^ rk.s12, b.s13 ^^^ rk.s13, b.s14 ^^^ rk.s14, b.s15 ^^^ rk.s15⟩

/-- Byte `i` (0 = most significant) of a 32-bit key-schedule word. -/
def wbyte (w i : Nat) : Nat := w / 2 ^ (8 * (3 - i)) % 256

/-- SubWord of the AES key schedule. -/
def subWord (w : Nat) : Nat :=
  sbox (wbyte w 0) * 2 ^ 24 + sbox (wbyte w 1) * 2 ^ 16 +
    sbox (wbyte w 2) * 2 ^ 8 + sbox (wbyte w 3)

/-- RotWord of the AES key schedule. -/
def rotWord (w : Nat) : Nat := (w % 2 ^ 24) * 256 + w / 2 ^ 24

/-- Round constant of the AES-256 key schedule (`j` ranges over 1..7). -/
def rcon (j : Nat) : Nat := 2 ^ (j - 1)

/-- Key-expansion step: `acc` holds the words produced so far, newest first.
`fuel` counts the words still to produce. -/
def expandGo : Nat → List Nat → List Nat
  | 0, acc => acc.reverse
  | fuel + 1, acc =>
    let i := acc.length
    let t := acc.getD 0 0
    let p := acc.getD 7 0
    let next :=
      if i % 8 = 0 then p ^^^ subWord (rotWord t) ^^^ rcon (i / 8) * 2 ^ 24
      else if i % 8 = 4 then p ^^^ subWord t
      else p ^^^ t
    expandGo fuel (next :: acc)

/-- The 60 words of the AES-256 key schedule (key = 32 bytes). -/
def expandWords (key : List Nat) : List Nat :=
  let first8 := (List.range 8).map fun i =>
    key.getD (4 * i) 0 * 2 ^ 24 + key.getD (4 * i + 1) 0 * 2 ^ 16 +
      key.getD (4 * i + 2) 0 * 2 ^ 8 + key.getD (4 * i + 3) 0
  expandGo 52 first8.reverse

/-- Round key `r` as a block: column `c` holds the bytes of word `4r + c`. -/
def roundKeyBlock (ws : List Nat) (r : Nat) : AesBlock :=
  ⟨wbyte (ws.getD (4 * r) 0) 0, wbyte (ws.getD (4 * r) 0) 1,
   wbyte (ws.getD (4 * r) 0) 2, wbyte (ws.getD (4 * r) 0) 3,
   wbyte (ws.getD (4 * r + 1) 0) 0, wbyte (ws.getD (4 * r + 1) 0) 1,
   wbyte (ws.getD (4 * r + 1) 0) 2, wbyte (ws.getD (4 * r + 1) 0) 3,
   wbyte (ws.getD (4 * r + 2) 0) 0, wbyte (ws.getD (4 * r + 2) 0) 1,
   wbyte (ws.getD (4 * r + 2) 0) 2, wbyte (ws.getD (4 * r + 2) 0) 3,
   wbyte (ws.getD (4 * r + 3) 0) 0, wbyte (ws.getD (4 * r + 3) 0) 1,
   wbyte (ws.getD (4 * r + 3) 0) 2, wbyte (ws.getD (4 * r + 3) 0) 3⟩

/-- AES-256 block encryption (14 rounds). -/
def aes256EncryptBlock (key : List Nat) (b : AesBlock) : AesBlock :=
  let ws := expandWords key
  let st := addRoundKeyB b (roundKeyBlock ws 0)
  let st := (List.range 13).foldl
    (fun s i => addRoundKeyB (mixColumnsB (shiftRowsB (subBytesB s))) (roundKeyBlock ws (i + 1)))
    st
  addRoundKeyB (shiftRowsB (subBytesB st)) (roundKeyBlock ws 14)

set_option maxRecDepth 100000 in
/-- FIPS-197 appendix C.3 AES-256 test vector. -/
theorem aes256_fips197_vector :
    aes256EncryptBlock (List.range 32)
      (blockOfBytes [0x00, 0x11, 0x22, 0x33, 0x44, 0x55, 0x66, 0x77,
                     0x88, 0x99, 0xaa, 0xbb, 0xcc, 0xdd, 0xee, 0xff]) =
      ⟨0x8e, 0xa2, 0xb7, 0xca, 0x51, 0x67, 0x45, 0xbf,
       0xea, 0xfc, 0x49, 0x90, 0x4b, 0x49, 0x60, 0x89⟩ := by decide

/-! ## GCM mode (NIST SP 800-38D, as implemented by the `aes-gcm` crate)

96-bit nonces only (the only shape `encrypt_with_aes_gcm` produces) and no
associated data (the crate is called with none). -/

/-- Big-endian byte list to natural number. -/
def bytesToNat (bs : List Nat) : Nat := bs.foldl (fun a b => a * 256 + b) 0

/-- Big-endian fixed-width byte serialization. -/
def natToBytes (len n : Nat) : List Nat :=
  (List.range len).map fun i => n / 256 ^ (len - 1 - i) % 256

@[simp] theorem length_natToBytes (len n : Nat) :
    (natToBytes len n).length = len := by
  simp [natToBytes]

/-- Multiplication in GF(2^128) with the GCM reduction polynomial.
`x` is the running factor, bits are taken from `y` most-significant first. -/
def gfMul (x y : Nat) : Nat :=
  ((List.range 128).foldl
    (fun p i =>
      let z := if Nat.testBit y (127 - i) then p.1 ^^^ p.2 else p.1
      let v := if Nat.testBit p.2 0 then p.2 / 2 ^^^ 0xE1 <<< 120 else p.2 / 2
      (z, v))
    ((0, x) : Nat × Nat)).1

/-- GHASH over a list of 128-bit blocks. -/
def ghashBlocks (h : Nat) (blocks : List Nat) : Nat :=
  blocks.foldl (fun y b => gfMul (y ^^^ b) h) 0

/-- GHASH of a ciphertext (no associated data): zero-padded ciphertext
blocks followed by the 128-bit length block. -/
def ghashCt (h : Nat) (ct : List Nat) : Nat :=
  let nb := (ct.length + 15) / 16
  let blocks := (List.range nb).map fun i =>
    let chunk := (ct.drop (16 * i)).take 16
    bytesToNat (chunk ++ List.replicate (16 - chunk.length) 0)
  ghashBlocks h (blocks ++ [ct.length * 8])

/-- The GHASH key `H = E_K(0^128)` as a 128-bit number. -/
def gcmH (key : List Nat) : Nat :=
  bytesToNat (blockBytes (aes256EncryptBlock key (blockOfBytes (List.replicate 16 0))))

/-- Pre-counter block `J0` for a 96-bit nonce. -/
def gcmJ0 (nonce : List Nat) : AesBlock := blockOfBytes (nonce ++ [0, 0, 0, 1])

/-- CTR keystream: blocks `E_K(nonce ∥ ctr)` for `ctr = 2, 3, …`,
truncated to `len` bytes. -/
def gcmKeystream (key nonce : List Nat) (len : Nat) : List Nat :=
  (((List.range ((len + 15) / 16)).map fun j =>
      blockBytes (aes256EncryptBlock key
        (blockOfBytes (nonce ++ natToBytes 4 ((2 + j) % 2 ^ 32))))).flatten).take len

/-- CTR en/decryption: XOR with the keystream (an involution). -/
def gcmCipher (key nonce pt : List Nat) : List Nat :=
  List.zipWith Nat.xor pt (gcmKeystream key nonce pt.length)

/-- The 16-byte authentication tag over a ciphertext. -/
def gcmTag (key nonce ct : List Nat) : List Nat :=
  natToBytes 16
    (ghashCt (gcmH key) ct ^^^
      bytesToNat (blockBytes (aes256EncryptBlock key (gcmJ0 nonce))))

/-- `Aes256Gcm::encrypt`: ciphertext with the tag appended. -/
def aeadEncrypt (key nonce pt : List Nat) : List Nat :=
  gcmCipher key nonce pt ++ gcmTag key nonce (gcmCipher key nonce pt)

/-- `Aes256Gcm::decrypt`: split off the trailing 16-byte tag, recompute it
over the ciphertext, and decrypt only on a match. -/
def aeadDecrypt (key nonce ctWithTag : List Nat) : Option (List Nat) :=
  if ctWithTag.length < 16 then none
  else
    let ct := ctWithTag.take (ctWithTag.length - 16)
    let tag := ctWithTag.drop (ctWithTag.length - 16)
    if gcmTag key nonce ct = tag then some (gcmCipher key nonce ct) else none

theorem length_gcmKeystream (key nonce : List Nat) (len : Nat) :
    (gcmKeystream key nonce len).length = len := by
  have hlen : ((((List.range ((len + 15) / 16)).map fun j =>
      blockBytes (aes256EncryptBlock key
        (blockOfBytes (nonce ++ natToBytes 4 ((2 + j) % 2 ^ 32))))).flatten).length) =
      16 * ((len + 15) / 16) := by
    rw [List.length_flatten, List.map_map]
    have : (List.map (List.length ∘ fun j =>
        blockBytes (aes256EncryptBlock key
          (blockOfBytes (nonce ++ natToBytes 4 ((2 + j) % 2 ^ 32)))))
        (List.range ((len + 15) / 16))) =
        List.replicate ((len + 15) / 16) 16 := by
      rw [List.eq_replicate_iff]
      constructor
      · simp
      · intro b hb
        simp only [List.mem_map] at hb
        obtain ⟨j, _, hj⟩ := hb
        simp [← hj, Function.comp]
    rw [this, List.sum_replicate, smul_eq_mul, Nat.mul_comm]
  have hge : len ≤ 16 * ((len + 15) / 16) := by omega
  unfold gcmKeystream
  rw [List.length_take, hlen]
  omega

theorem zipWith_xor_cancel (l : List Nat) :
    ∀ ks : List Nat, l.length ≤ ks.length →
      List.zipWith Nat.xor (List.zipWith Nat.xor l ks) ks = l := by
  induction l with
  | nil => intro ks _; simp
  | cons a tl ih =>
    intro ks hlen
    cases ks with
    | nil => simp at hlen
    | cons k ktl =>
      simp only [List.zipWith_cons_cons, List.cons.injEq]
      refine ⟨Nat.xor_cancel_right k a, ih ktl ?_⟩
      simpa using hlen

theorem length_gcmCipher (key nonce pt : List Nat) :
    (gcmCipher key nonce pt).length = pt.length := by
  simp [gcmCipher, length_gcmKeystream]

theorem gcmCipher_gcmCipher (key nonce pt : List Nat) :
    gcmCipher key nonce (gcmCipher key nonce pt) = pt := by
  unfold gcmCipher
  have h1 : (List.zipWith Nat.xor pt (gcmKeystream key nonce pt.length)).length =
      pt.length := by
    simp [length_gcmKeystream]
  rw [h1]
  exact zipWith_xor_cancel pt (gcmKeystream key nonce pt.length)
    (by rw [length_gcmKeystream])

@[simp] theorem length_gcmTag (key nonce ct : List Nat) :
    (gcmTag key nonce ct).length = 16 := by
  simp [gcmTag]

/-- The AEAD round-trip at the crate level. -/
theorem aeadDecrypt_aeadEncrypt (key nonce pt : List Nat) :
    aeadDecrypt key nonce (aeadEncrypt key nonce pt) = some pt := by
  unfold aeadEncrypt aeadDecrypt
  have hlen : (gcmCipher key nonce pt ++ gcmTag key nonce (gcmCipher key nonce pt)).length =
      (gcmCipher key nonce pt).length + 16 := by
    simp
  rw [hlen]
  have hnotlt : ¬ ((gcmCipher key nonce pt).length + 16 < 16) := by omega
  rw [if_neg hnotlt]
  have hsub : (gcmCipher key nonce pt).length + 16 - 16 = (gcmCipher key nonce pt).length := by
    omega
  rw [hsub, List.take_left, List.drop_left, if_pos rfl, gcmCipher_gcmCipher]

set_option maxRecDepth 200000 in
/-- NIST GCM test case 13: all-zero key and nonce, empty plaintext. -/
theorem gcm_nist_case13 :
    aeadEncrypt (List.replicate 32 0) (List.replicate 12 0) [] =
      [0x53, 0x0f, 0x8a, 0xfb, 0xc7, 0x45, 0x36, 0xb9,
       0xa9, 0x63, 0xb4, 0xf1, 0xc4, 0xcb, 0x73, 0x8b] := by decide

set_option maxRecDepth 200000 in
/-- NIST GCM test case 14: all-zero key and nonce, 16 zero bytes. -/
theorem gcm_nist_case14 :
    aeadEncrypt (List.replicate 32 0) (List.replicate 12 0) (List.replicate 16 0) =
      [0xce, 0xa7, 0x40, 0x3d, 0x4d, 0x60, 0x6b, 0x6e,
       0x07, 0x4e, 0xc5, 0xd3, 0xba, 0xf3, 0x9d, 0x18,
       0xd0, 0xd1, 0xc8, 0xa7, 0x99, 0x99, 0x6b, 0xf0,
       0x26, 0x5b, 0x98, 0xb5, 0xd4, 0x8a, 0xb9, 0x19] := by decide

/-! ## `security.rs`: encrypted envelopes -/

/-- `EncryptionAlgorithm` from `security.rs`. -/
inductive EncryptionAlgorithm where
  | aes256Gcm
  | chaCha20Poly1305
  deriving DecidableEq, Repr

/-- `EncryptedData` from `security.rs`. -/
structure EncryptedData where
  ciphertext : List Nat
  nonce : List Nat
  tag : List Nat
  algorithm : EncryptionAlgorithm
  key_id : String
  deriving DecidableEq, Repr

/-- `SecurityManager::encrypt_with_aes_gcm`.  The randomly sampled 12-byte
nonce is an explicit parameter (`OsRng.fill_bytes`).  The crate output is
`ciphertext ∥ tag`; the code splits it at `len.saturating_sub(16)`.
`Aes256Gcm::new_from_slice` fails for keys that are not 32 bytes, which
surfaces as `none`. -/
def encrypt_with_aes_gcm (key data : List Nat) (keyId : String)
    (nonceBytes : List Nat) : Option EncryptedData :=
  if key.length ≠ 32 then none
  else
    let ciphertext := aeadEncrypt key nonceBytes data
    let tagStart := ciphertext.length - 16
    some
      { ciphertext := ciphertext.take tagStart
        nonce := nonceBytes
        tag := ciphertext.drop tagStart
        algorithm := .aes256Gcm
        key_id := keyId }

/-- `SecurityManager::decrypt_with_aes_gcm`.  Rebuilds `ciphertext ∥ tag`
and hands it to the crate; a wrong-length key or nonce fails (the code
would panic in `Nonce::from_slice` on a nonce that is not 12 bytes). -/
def decrypt_with_aes_gcm (key : List Nat) (e : EncryptedData) :
    Option (List Nat) :=
  if key.length ≠ 32 then none
  else if e.nonce.length ≠ 12 then none
  else aeadDecrypt key e.nonce (e.ciphertext ++ e.tag)

/-! ## `security.rs`: session keys and rotation -/

/-- `SessionKey` from `security.rs` (`Instant`s as `Nat`). -/
structure SessionKey where
  key : List Nat
  created_at : Nat
  rotation_count : Nat
  algorithm : EncryptionAlgorithm
  last_rotated_at : Nat
  max_age_secs : Nat
  auto_rotate : Bool
  deriving DecidableEq, Repr

/-- `KeyRotationConfig` from `security.rs`. -/
structure KeyRotationConfig where
  rotation_interval_secs : Nat
  max_messages_per_key : Nat
  auto_rotate : Bool
  grace_period_secs : Nat
  deriving DecidableEq, Repr

/-- `KeyRotationConfig::default`. -/
def KeyRotationConfig.default : KeyRotationConfig :=
  { rotation_interval_secs := 3600
    max_messages_per_key := 1000000
    auto_rotate := true
    grace_period_secs := 60 }

/-- The two key tables owned by `SecurityManager`: `session_keys` and
`old_session_keys` (old keys paired with their grace-expiration instant). -/
structure SessionKeyStore where
  session_keys : List (String × SessionKey)
  old_session_keys : List (String × List (SessionKey × Nat))
  deriving DecidableEq, Repr

/-- `SecurityManager::generate_session_key` (fresh key bytes and the
current instant are parameters).  Also installs fresh replay state, which
is modelled separately. -/
def generate_session_key (cfg : KeyRotationConfig) (st : SessionKeyStore)
    (sid : String) (newKeyBytes : List Nat) (now : Nat) :
    SessionKey × SessionKeyStore :=
  let sk : SessionKey :=
    { key := newKeyBytes
      created_at := now
      rotation_count := 0
      algorithm := .aes256Gcm
      last_rotated_at := now
      max_age_secs := cfg.rotation_interval_secs
      auto_rotate := cfg.auto_rotate }
  (sk, { st with session_keys := insertA st.session_keys sid sk })

/-- `SecurityManager::rotate_session_key`: pushes the superseded key onto
`old_session_keys` with expiration `now + grace_period`, then overwrites
the current key and bumps the rotation counter.  `none` models the
`Session not found` error. -/
def rotate_session_key (cfg : KeyRotationConfig) (st : SessionKeyStore)
    (sid : String) (newKeyBytes : List Nat) (now : Nat) :
    Option (SessionKey × SessionKeyStore) :=
  match lookupA st.session_keys sid with
  | none => none
  | some existing =>
    let graceExpiration := now + cfg.grace_period_secs
    let oldList := (lookupA st.old_session_keys sid).getD []
    let updated : SessionKey :=
      { existing with
          key := newKeyBytes
          last_rotated_at := now
          rotation_count := existing.rotation_count + 1 }
    some (updated,
      { session_keys := insertA st.session_keys sid updated
        old_session_keys :=
          insertA st.old_session_keys sid (oldList ++ [(existing, graceExpiration)]) })

/-- `SecurityManager::encrypt_media_stream` (bypass envelope when
DTLS-SRTP is disabled; else AES-GCM under the current session key). -/
def encrypt_media_stream (enableDtlsSrtp : Bool) (st : SessionKeyStore)
    (sid : String) (data : List Nat) (nonceBytes : List Nat) :
    Option EncryptedData :=
  if !enableDtlsSrtp then
    some { ciphertext := data, nonce := [], tag := [],
           algorithm := .aes256Gcm, key_id := sid }
  else
    match lookupA st.session_keys sid with
    | none => none
    | some k => encrypt_with_aes_gcm k.key data sid nonceBytes

/-- `SecurityManager::decrypt_media_stream`.  Note: only the *current*
session key is consulted; `old_session_keys` is never read here. -/
def decrypt_media_stream (enableDtlsSrtp : Bool) (st : SessionKeyStore)
    (sid : String) (e : EncryptedData) : Option (List Nat) :=
  if !enableDtlsSrtp then some e.ciphertext
  else
    match lookupA st.session_keys sid with
    | none => none
    | some k => decrypt_with_aes_gcm k.key e

/-! ## `security.rs`: threat detection -/

/-- `ThreatDetectionConfig` from `security.rs`. -/
structure ThreatDetectionConfig where
  detect_replay_attacks : Bool
  detect_tampering : Bool
  detect_brute_force : Bool
  max_failed_attempts : Nat
  lockout_duration_secs : Nat
  attempt_window_secs : Nat
  detect_anomalies : Bool
  deriving DecidableEq, Repr

/-- `ThreatDetectionConfig::default`. -/
def ThreatDetectionConfig.default : ThreatDetectionConfig :=
  { detect_replay_attacks := true
    detect_tampering := true
    detect_brute_force := true
    max_failed_attempts := 5
    lockout_duration_secs := 300
    attempt_window_secs := 60
    detect_anomalies := true }

/-- `ReplayDetectionState` from `security.rs`.  The `HashSet` of seen
nonces is modelled as a list in insertion order; the nondeterministic
iteration order of `HashSet::iter` (used when evicting half the set) is
modelled as that insertion order. -/
structure ReplayDetectionState where
  seen_nonces : List (List Nat)
  max_nonces : Nat
  oldest_nonce_time : Nat
  nonce_expiration_secs : Nat
  deriving DecidableEq, Repr

/-- `ReplayDetectionState::default` (created at instant `now`). -/
def ReplayDetectionState.mkDefault (now : Nat) : ReplayDetectionState :=
  { seen_nonces := []
    max_nonces := 100000
    oldest_nonce_time := now
    nonce_expiration_secs := 300 }

/-- The per-state body of `SecurityManager::detect_replay_attack`:
if `oldest_nonce_time.elapsed() > nonce_expiration_secs`, clear the whole
set and reset the epoch; reject if the nonce is present; otherwise evict
half on overflow and insert. -/
def detect_replay_attack_state (st : ReplayDetectionState)
    (nonce : List Nat) (now : Nat) : Bool × ReplayDetectionState :=
  let st1 :=
    if st.nonce_expiration_secs < now - st.oldest_nonce_time then
      { st with seen_nonces := [], oldest_nonce_time := now }
    else st
  if st1.seen_nonces.contains nonce then (true, st1)
  else
    let st2 :=
      if st1.max_nonces ≤ st1.seen_nonces.length then
        { st1 with seen_nonces := st1.seen_nonces.drop (st1.max_nonces / 2) }
      else st1
    (false, { st2 with seen_nonces := st2.seen_nonces ++ [nonce] })

/-- `SecurityManager::detect_replay_attack` over the per-session replay
map (`or_insert_with(ReplayDetectionState::default)`). -/
def detect_replay_attack (cfg : ThreatDetectionConfig)
    (m : List (String × ReplayDetectionState)) (sid : String)
    (nonce : List Nat) (now : Nat) :
    Bool × List (String × ReplayDetectionState) :=
  if !cfg.detect_replay_attacks then (false, m)
  else
    let st := (lookupA m sid).getD (ReplayDetectionState.mkDefault now)
    let r := detect_replay_attack_state st nonce now
    (r.1, insertA m sid r.2)

/-- `FailedAttemptTracker` from `security.rs`. -/
structure FailedAttemptTracker where
  attempts : List (String × List Nat)
  lockouts : List (String × Nat)
  deriving DecidableEq, Repr

/-- `SecurityManager::track_failed_attempt`.  Early-returns `true` while a
lockout is active; drops an expired lockout; retains only attempts inside
the window, appends `now`, and on reaching `max_failed_attempts` installs
a lockout until `now + lockout_duration_secs` and clears the window. -/
def track_failed_attempt (cfg : ThreatDetectionConfig)
    (tr : FailedAttemptTracker) (id : String) (now : Nat) :
    Bool × FailedAttemptTracker :=
  if !cfg.detect_brute_force then (false, tr)
  else
    let step :=
      match lookupA tr.lockouts id with
      | some unlockTime =>
        if now < unlockTime then none
        else some { tr with lockouts := removeA tr.lockouts id }
      | none => some tr
    match step with
    | none => (true, tr)
    | some tr1 =>
      let prev := (lookupA tr1.attempts id).getD []
      let windowStart := now - cfg.attempt_window_secs
      let kept := prev.filter fun t => windowStart < t
      let appended := kept ++ [now]
      if cfg.max_failed_attempts ≤ appended.length then
        (true,
          { attempts := insertA tr1.attempts id []
            lockouts := insertA tr1.lockouts id (now + cfg.lockout_duration_secs) })
      else
        (false, { tr1 with attempts := insertA tr1.attempts id appended })

/-- `SecurityManager::is_locked_out`. -/
def is_locked_out (tr : FailedAttemptTracker) (id : String) (now : Nat) :
    Bool :=
  match lookupA tr.lockouts id with
  | some unlockTime => now < unlockTime
  | none => false

/-- `SecurityManager::clear_failed_attempts`. -/
def clear_failed_attempts (tr : FailedAttemptTracker) (id : String) :
    FailedAttemptTracker :=
  { attempts := removeA tr.attempts id
    lockouts := removeA tr.lockouts id }

/-! ## binary32 (`f32`) arithmetic model

`screen_capture.rs` computes `(bw as f32 * 0.8) as u32` and
`(target_fps as f32 * factor) as u32`, and compares `f32` packet-loss
percentages against literals.  Every `f32` value in range is an exact
nonnegative rational; we carry such values as unnormalized fractions
(`Frac`, value `num / den`) so that all arithmetic is plain `Nat`
arithmetic, and model one `f32` rounding step with
round-to-nearest-ties-to-even at 24 bits of precision.  (Overflow and
subnormals cannot occur for the values these expressions produce, so they
are not modelled.) -/

/-- An unnormalized nonnegative fraction with positive denominator,
representing the exact value of an `f32` (or an intermediate exact
product). -/
structure Frac where
  num : Nat
  den : Nat
  deriving DecidableEq, Repr

/-- Embed a natural number. -/
def Frac.ofNat (n : Nat) : Frac := ⟨n, 1⟩

/-- Value comparison `a < b` (cross multiplication). -/
def flt (a b : Frac) : Bool := a.num * b.den < b.num * a.den

/-- Value comparison `a ≤ b`. -/
def fle (a b : Frac) : Bool := a.num * b.den ≤ b.num * a.den

/-- Exact product. -/
def fmul (a b : Frac) : Frac := ⟨a.num * b.num, a.den * b.den⟩

/-- `⌊a⌋`. -/
def ffloor (a : Frac) : Nat := a.num / a.den

/-- Fuel-bounded `⌊log₂ n⌋` (0 for `n ≤ 1`); total on all inputs below
`2 ^ 64`, which covers every value in scope. -/
def log2Go : Nat → Nat → Nat
  | 0, _ => 0
  | fuel + 1, n => if n ≤ 1 then 0 else log2Go fuel (n / 2) + 1

/-- `⌊log₂ n⌋` for positive `n`. -/
def natLog2 (n : Nat) : Nat := log2Go 64 n

/-- `2 ^ e` for an integer exponent, as a fraction. -/
def fpow2 : Int → Frac
  | .ofNat n => ⟨2 ^ n, 1⟩
  | .negSucc n => ⟨1, 2 ^ (n + 1)⟩

/-- Round a fraction to the nearest integer, ties to even. -/
def frne (x : Frac) : Nat :=
  let q := x.num / x.den
  let r := x.num % x.den
  if 2 * r < x.den then q
  else if x.den < 2 * r then q + 1
  else if q % 2 = 0 then q else q + 1

/-- Fuel-bounded search for the least `k ≥ k0` with `1 ≤ x * 2 ^ k`
(for positive `x < 1`). -/
def fsmallExpGo (x : Frac) : Nat → Nat → Nat
  | 0, k => k
  | fuel + 1, k =>
    if fle (Frac.ofNat 1) (fmul x (fpow2 k)) then k
    else fsmallExpGo x fuel (k + 1)

/-- `⌊log₂ x⌋` for a positive fraction. -/
def ffloorLog2 (x : Frac) : Int :=
  if fle (Frac.ofNat 1) x then (natLog2 (ffloor x) : Int)
  else -(fsmallExpGo x 300 1 : Int)

/-- Round a nonnegative fraction to the nearest binary32 value. -/
def froundF32 (x : Frac) : Frac :=
  if x.num = 0 then Frac.ofNat 0
  else
    let e := ffloorLog2 x
    fmul (Frac.ofNat (frne (fmul x (fpow2 (23 - e))))) (fpow2 (e - 23))

/-- `u32 as f32`. -/
def f32ofNat (n : Nat) : Frac := froundF32 (Frac.ofNat n)

/-- `f32` multiplication (one rounding of the exact product). -/
def f32mul (a b : Frac) : Frac := froundF32 (fmul a b)

/-- `f32 as u32`: truncate toward zero, saturating. -/
def f32toU32 (x : Frac) : Nat :=
  if fle (Frac.ofNat 4294967296) x then 4294967295 else ffloor x

/-- The `f32` literal `0.8`. -/
def f32Lit0p8 : Frac := froundF32 ⟨4, 5⟩

/-- The `f32` literal `0.7`. -/
def f32Lit0p7 : Frac := froundF32 ⟨7, 10⟩

/-- The `f32` literal `0.85`. -/
def f32Lit0p85 : Frac := froundF32 ⟨17, 20⟩

/-- Rust `u32::clamp` (defined for `lo ≤ hi`; Rust panics otherwise). -/
def rclamp (x lo hi : Nat) : Nat :=
  if x < lo then lo else if hi < x then hi else x

/-- Rust `as i32` cast of a `u32` value. -/
def i32cast (n : Nat) : Int :=
  if n % 2 ^ 32 < 2 ^ 31 then (n % 2 ^ 32 : Int) else (n % 2 ^ 32 : Int) - 2 ^ 32

/-! ## `screen_capture.rs` -/

/-- `VideoCodecType`. -/
inductive VideoCodecType where
  | h264
  | h265
  | vp9
  deriving DecidableEq, Repr

/-- `QualityPreset`. -/
inductive QualityPreset where
  | low
  | balanced
  | high
  | ultra
  deriving DecidableEq, Repr

/-- `CaptureOptions` (bitrate in kbps). -/
structure CaptureOptions where
  frame_rate : Nat
  width : Nat
  height : Nat
  enable_hardware_acceleration : Bool
  codec : VideoCodecType
  bitrate : Nat
  quality_preset : QualityPreset
  deriving DecidableEq, Repr

/-- `CaptureOptions::default`. -/
def CaptureOptions.mkDefault : CaptureOptions :=
  { frame_rate := 30
    width := 1920
    height := 1080
    enable_hardware_acceleration := true
    codec := .h264
    bitrate := 4000
    quality_preset := .balanced }

/-- `AdaptiveBitrateConfig`. -/
structure AdaptiveBitrateConfig where
  min_bitrate : Nat
  max_bitrate : Nat
  target_bitrate : Nat
  min_frame_rate : Nat
  max_frame_rate : Nat
  target_frame_rate : Nat
  deriving DecidableEq, Repr

/-- `AdaptiveBitrateConfig::default`. -/
def AdaptiveBitrateConfig.mkDefault : AdaptiveBitrateConfig :=
  { min_bitrate := 500
    max_bitrate := 8000
    target_bitrate := 4000
    min_frame_rate := 15
    max_frame_rate := 60
    target_frame_rate := 30 }

/-- `NetworkConditions` (`packet_loss` is an `f32` percentage, held as the
exact fraction it denotes). -/
structure NetworkConditions where
  available_bandwidth : Nat
  packet_loss : Frac
  rtt : Nat
  deriving DecidableEq, Repr

/-- `ScreenCapturer::set_frame_rate`: stores `fps.clamp(15, 60)`. -/
def set_frame_rate (o : CaptureOptions) (fps : Nat) : CaptureOptions :=
  { o with frame_rate := rclamp fps 15 60 }

/-- `ScreenCapturer::set_bitrate`: stores the argument unchanged. -/
def set_bitrate (o : CaptureOptions) (bitrate : Nat) : CaptureOptions :=
  { o with bitrate := bitrate }

/-- `ScreenCapturer::adapt_to_network_conditions`.  The bitrate is only
written when the change exceeds 200 kbps; the frame rate is written
whenever it differs from the clamped target. -/
def adapt_to_network_conditions (o : CaptureOptions)
    (cfg : AdaptiveBitrateConfig) (c : NetworkConditions) : CaptureOptions :=
  let target_bitrate := f32toU32 (f32mul (f32ofNat c.available_bandwidth) f32Lit0p8)
  let new_bitrate := rclamp target_bitrate cfg.min_bitrate cfg.max_bitrate
  let frame_rate_factor :=
    if flt (Frac.ofNat 5) c.packet_loss ∨ 150 < c.rtt then f32Lit0p7
    else if flt (Frac.ofNat 2) c.packet_loss ∨ 100 < c.rtt then f32Lit0p85
    else Frac.ofNat 1
  let new_frame_rate :=
    rclamp (f32toU32 (f32mul (f32ofNat cfg.target_frame_rate) frame_rate_factor))
      cfg.min_frame_rate cfg.max_frame_rate
  let o1 :=
    if 200 < (i32cast o.bitrate - i32cast new_bitrate).natAbs then
      { o with bitrate := new_bitrate }
    else o
  if o1.frame_rate ≠ new_frame_rate then { o1 with frame_rate := new_frame_rate }
  else o1

/-! ## `network.rs`: quality classification -/

/-- `NetworkQuality`. -/
inductive NetworkQuality where
  | excellent
  | good
  | fair
  | poor
  deriving DecidableEq, Repr

/-- The fields of `NetworkStats` that `calculate_quality` reads
(`packet_loss` is an `f32` percentage held as an exact fraction). -/
structure NetworkStats where
  rtt : Nat
  packet_loss : Frac
  jitter : Nat
  bandwidth : Nat
  deriving DecidableEq, Repr

/-- `NetworkManager::calculate_quality`. -/
def calculate_quality (stats : NetworkStats) : NetworkQuality :=
  if stats.rtt < 50 ∧ flt stats.packet_loss (Frac.ofNat 1) then .excellent
  else if stats.rtt < 100 ∧ flt stats.packet_loss (Frac.ofNat 3) then .good
  else if stats.rtt < 200 ∧ flt stats.packet_loss (Frac.ofNat 5) then .fair
  else .poor

/-! ## `access_control.rs` -/

/-- `Permission` from `access_control.rs`. -/
inductive ACPermission where
  | viewScreen
  | inputControl
  | fileTransfer
  | clipboard
  | audioCapture
  | fullControl
  deriving DecidableEq, Repr

/-- `AccessCode` (`Instant`s as `Nat` seconds; `expires_in` is the
`Duration` field, 600 for generated codes). -/
structure AccessCode where
  code : String
  device_id : String
  created_at : Nat
  expires_in : Nat
  permissions : List ACPermission
  used : Bool
  deriving DecidableEq, Repr

/-- `AccessCode::is_expired`: `created_at.elapsed() > expires_in`
(`elapsed` saturates at zero, as truncated `Nat` subtraction does). -/
def AccessCode.isExpired (ac : AccessCode) (now : Nat) : Bool :=
  ac.expires_in < now - ac.created_at

/-- `AccessCode::is_valid`: not expired and not used. -/
def AccessCode.isValid (ac : AccessCode) (now : Nat) : Bool :=
  !ac.isExpired now && !ac.used

/-- `AccessControlManager::generate_access_code` (the sampled code string
and the current instant are parameters; lifetime 600 s). -/
def generate_access_code (codes : List (String × AccessCode))
    (deviceId codeStr : String) (permissions : List ACPermission)
    (now : Nat) : AccessCode × List (String × AccessCode) :=
  let ac : AccessCode :=
    { code := codeStr
      device_id := deviceId
      created_at := now
      expires_in := 600
      permissions := permissions
      used := false }
  (ac, insertA codes codeStr ac)

/-- `AccessControlManager::validate_access_code`: the record iff valid. -/
def validate_access_code (codes : List (String × AccessCode))
    (c : String) (now : Nat) : Option AccessCode :=
  match lookupA codes c with
  | none => none
  | some ac => if ac.isValid now then some ac else none

/-- `AccessControlManager::use_access_code`: marks a valid code used and
returns its permissions; otherwise returns `none` and leaves the table
unchanged. -/
def use_access_code (codes : List (String × AccessCode)) (c : String)
    (now : Nat) : Option (List ACPermission) × List (String × AccessCode) :=
  match lookupA codes c with
  | none => (none, codes)
  | some ac =>
    if ac.isValid now then
      (some ac.permissions, insertA codes c { ac with used := true })
    else (none, codes)

/-! ## `session_manager.rs` -/

/-- `SessionStatus`. -/
inductive SessionStatus where
  | pending
  | active
  | paused
  | ended
  | failed
  deriving DecidableEq, Repr

/-- `Permission` from `session_manager.rs`. -/
inductive SMPermission where
  | screenView
  | inputControl
  | fileTransfer
  | audioCapture
  | systemControl
  deriving DecidableEq, Repr

/-- `EndReason`. -/
inductive EndReason where
  | userRequested
  | remoteDisconnect
  | timeout
  | networkError
  | authenticationFailed
  | permissionDenied
  | systemError (msg : String)
  deriving DecidableEq, Repr

/-- `Session` (times as `Nat` seconds; the `stats` and `metadata` fields
are not read by any claim and are not modelled). -/
structure Session where
  session_id : String
  controller_id : String
  controlled_id : String
  start_time : Nat
  end_time : Option Nat
  status : SessionStatus
  permissions : List SMPermission
  deriving DecidableEq, Repr

/-- `Session::new` (UUID and instant as parameters): pending, no end time. -/
def Session.mkNew (sid controllerId controlledId : String)
    (permissions : List SMPermission) (now : Nat) : Session :=
  { session_id := sid
    controller_id := controllerId
    controlled_id := controlledId
    start_time := now
    end_time := none
    status := .pending
    permissions := permissions }

/-- `Session::duration_secs`: `(end_or_now - start).max(0)`. -/
def Session.durationSecs (s : Session) (now : Nat) : Nat :=
  s.end_time.getD now - s.start_time

/-- `SessionRecord` (stats field not modelled). -/
structure SessionRecord where
  session_id : String
  controller_id : String
  controlled_id : String
  start_time : Nat
  end_time : Nat
  duration_secs : Nat
  end_reason : EndReason
  deriving DecidableEq, Repr

/-- `PermissionRequest` (5-minute validity). -/
structure PermissionRequest where
  request_id : String
  from_device_id : String
  to_device_id : String
  permissions : List SMPermission
  message : Option String
  created_at : Nat
  expires_at : Nat
  deriving DecidableEq, Repr

/-- `PermissionRequest::new` (UUID and instant as parameters). -/
def PermissionRequest.mkNew (rid fromId toId : String)
    (permissions : List SMPermission) (now : Nat) : PermissionRequest :=
  { request_id := rid
    from_device_id := fromId
    to_device_id := toId
    permissions := permissions
    message := none
    created_at := now
    expires_at := now + 300 }

/-- `PermissionRequest::is_expired`: `now > expires_at`. -/
def PermissionRequest.isExpired (r : PermissionRequest) (now : Nat) : Bool :=
  r.expires_at < now

/-- The state owned by `SessionManager`: active sessions, history,
pending permission requests, and the retention knob (days). -/
structure SMState where
  sessions : List (String × Session)
  history : List SessionRecord
  pending_requests : List (String × PermissionRequest)
  history_retention_days : Nat
  deriving DecidableEq, Repr

/-- `SessionManager::new`. -/
def SMState.mkNew : SMState :=
  { sessions := [], history := [], pending_requests := [],
    history_retention_days := 30 }

/-- `SessionManager::create_session`. -/
def create_session (st : SMState) (localId remoteId : String)
    (permissions : List SMPermission) (newSid : String) (now : Nat) :
    Session × SMState :=
  let s := Session.mkNew newSid localId remoteId permissions now
  (s, { st with sessions := insertA st.sessions newSid s })

/-- `SessionManager::join_session`: sets the status to `Active` for any
stored session. -/
def join_session (st : SMState) (sid : String) : Option (Session × SMState) :=
  match lookupA st.sessions sid with
  | none => none
  | some s =>
    let s' := { s with status := SessionStatus.active }
    some (s', { st with sessions := insertA st.sessions sid s' })

/-- `SessionManager::pause_session`: sets the status to `Paused` for any
stored session (there is no check that the session was active). -/
def pause_session (st : SMState) (sid : String) : Option SMState :=
  match lookupA st.sessions sid with
  | none => none
  | some s =>
    some { st with sessions := insertA st.sessions sid { s with status := SessionStatus.paused } }

/-- `SessionManager::resume_session`: sets the status to `Active` for any
stored session. -/
def resume_session (st : SMState) (sid : String) : Option SMState :=
  match lookupA st.sessions sid with
  | none => none
  | some s =>
    some { st with sessions := insertA st.sessions sid { s with status := SessionStatus.active } }

/-- `SessionManager::end_session`: removes the session, marks it ended
with the end timestamp, appends a history record and evicts records older
than the retention window. -/
def end_session (st : SMState) (sid : String) (reason : EndReason)
    (now : Nat) : Option (SessionRecord × SMState) :=
  match lookupA st.sessions sid with
  | none => none
  | some s =>
    let s' := { s with status := SessionStatus.ended, end_time := some now }
    let record : SessionRecord :=
      { session_id := s'.session_id
        controller_id := s'.controller_id
        controlled_id := s'.controlled_id
        start_time := s'.start_time
        end_time := now
        duration_secs := s'.durationSecs now
        end_reason := reason }
    let cutoff := now - st.history_retention_days * 86400
    some (record,
      { st with
          sessions := removeA st.sessions sid
          history := (st.history ++ [record]).filter fun r => cutoff < r.end_time })

/-- `SessionManager::request_permission` (UUID and instant as
parameters). -/
def request_permission (st : SMState) (localId remoteId : String)
    (permissions : List SMPermission) (rid : String) (now : Nat) :
    String × SMState :=
  let req := PermissionRequest.mkNew rid localId remoteId permissions now
  (rid, { st with pending_requests := insertA st.pending_requests rid req })

/-- Outcome of `SessionManager::grant_permission`. -/
inductive GrantOutcome where
  | ok
  | expired
  | notFound
  deriving DecidableEq, Repr

/-- `SessionManager::grant_permission`: `HashMap::remove` first, expiry
check afterwards — an expired request is removed *before* the error is
returned. -/
def grant_permission (st : SMState) (rid : String) (grant : Bool)
    (now : Nat) : GrantOutcome × SMState :=
  match lookupA st.pending_requests rid with
  | none => (.notFound, st)
  | some req =>
    let st' := { st with pending_requests := removeA st.pending_requests rid }
    if req.isExpired now then (.expired, st')
    else (.ok, st')

/-- `SessionManager::get_pending_requests`: the stored requests that are
not expired. -/
def get_pending_requests (st : SMState) (now : Nat) : List PermissionRequest :=
  (st.pending_requests.map Prod.snd).filter fun r => !r.isExpired now

/-! ## Further association-list lemmas -/

theorem lookupA_mem {α : Type} {l : List (String × α)} {k : String} {v : α}
    (h : lookupA l k = some v) : (k, v) ∈ l := by
  induction l with
  | nil => simp [lookupA] at h
  | cons hd tl ih =>
    obtain ⟨k0, v0⟩ := hd
    simp only [lookupA] at h
    split at h
    · rename_i heq
      injection h with hv
      subst heq
      subst hv
      exact List.mem_cons_self _ _
    · exact List.mem_cons_of_mem _ (ih h)

theorem mem_keys_insertA {α : Type} {l : List (String × α)} {k k' : String}
    {v : α} (h : k' ∈ (insertA l k v).map Prod.fst) :
    k' ∈ l.map Prod.fst ∨ k' = k := by
  induction l with
  | nil => simpa [insertA] using h
  | cons hd tl ih =>
    obtain ⟨k0, v0⟩ := hd
    simp only [insertA] at h
    split at h
    · rename_i heq
      simp only [List.map_cons, List.mem_cons] at h ⊢
      rcases h with h | h
      · exact Or.inr (heq ▸ h)
      · exact Or.inl (Or.inr h)
    · simp only [List.map_cons, List.mem_cons] at h ⊢
      rcases h with h | h
      · exact Or.inl (Or.inl h)
      · rcases ih h with h' | h'
        · exact Or.inl (Or.inr h')
        · exact Or.inr h'

theorem nodup_insertA {α : Type} {l : List (String × α)} (k : String) (v : α)
    (h : (l.map Prod.fst).Nodup) : ((insertA l k v).map Prod.fst).Nodup := by
  induction l with
  | nil => simp [insertA]
  | cons hd tl ih =>
    obtain ⟨k0, v0⟩ := hd
    simp only [List.map_cons, List.nodup_cons] at h
    simp only [insertA]
    split
    · simp only [List.map_cons, List.nodup_cons]
      exact h
    · rename_i hne
      simp only [List.map_cons, List.nodup_cons]
      refine ⟨fun hmem => ?_, ih h.2⟩
      rcases mem_keys_insertA hmem with h' | h'
      · exact h.1 h'
      · exact hne h'

theorem mem_removeA {α : Type} {l : List (String × α)} {k : String}
    {p : String × α} (h : p ∈ removeA l k) : p ∈ l := by
  induction l with
  | nil => simp [removeA] at h
  | cons hd tl ih =>
    obtain ⟨k0, v0⟩ := hd
    simp only [removeA] at h
    split at h
    · exact List.mem_cons_of_mem _ h
    · simp only [List.mem_cons] at h ⊢
      rcases h with h | h
      · exact Or.inl h
      · exact Or.inr (ih h)

theorem nodup_removeA {α : Type} {l : List (String × α)} (k : String)
    (h : (l.map Prod.fst).Nodup) : ((removeA l k).map Prod.fst).Nodup := by
  induction l with
  | nil => simp [removeA]
  | cons hd tl ih =>
    obtain ⟨k0, v0⟩ := hd
    simp only [List.map_cons, List.nodup_cons] at h
    simp only [removeA]
    split
    · exact h.2
    · simp only [List.map_cons, List.nodup_cons]
      refine ⟨fun hmem => ?_, ih h.2⟩
      simp only [List.mem_map] at hmem
      obtain ⟨p, hp, hfst⟩ := hmem
      exact h.1 (List.mem_map.mpr ⟨p, mem_removeA hp, hfst⟩)

theorem fst_ne_of_mem_removeA {α : Type} {l : List (String × α)} {k : String}
    {p : String × α} (hnd : (l.map Prod.fst).Nodup) (h : p ∈ removeA l k) :
    p.1 = k → False := by
  intro hfst
  induction l with
  | nil => simp [removeA] at h
  | cons hd tl ih =>
    obtain ⟨k0, v0⟩ := hd
    simp only [List.map_cons, List.nodup_cons] at hnd
    simp only [removeA] at h
    split at h
    · rename_i heq
      subst heq
      exact hnd.1 (List.mem_map.mpr ⟨p, h, hfst⟩)
    · rename_i hne
      simp only [List.mem_cons] at h
      rcases h with h | h
      · subst h
        exact hne hfst
      · exact ih hnd.2 h

theorem lookupA_insertA_cases {α : Type} {l : List (String × α)}
    {k k' : String} {v w : α} (h : lookupA (insertA l k v) k' = some w) :
    (k' = k ∧ w = v) ∨ (k' ≠ k ∧ lookupA l k' = some w) := by
  by_cases hk : k' = k
  · subst hk
    rw [lookupA_insertA_self] at h
    injection h with h
    exact Or.inl ⟨rfl, h.symm⟩
  · rw [lookupA_insertA_ne l k k' v (fun hc => hk hc.symm)] at h
    exact Or.inr ⟨hk, h⟩

/-- Rust `clamp` stays inside `[lo, hi]` when `lo ≤ hi`. -/
theorem rclamp_bounds (x lo hi : Nat) (h : lo ≤ hi) :
    lo ≤ rclamp x lo hi ∧ rclamp x lo hi ≤ hi := by
  unfold rclamp
  split
  · exact ⟨Nat.le_refl lo, h⟩
  · split
    · exact ⟨h, Nat.le_refl hi⟩
    · omega

/-! ## Claim theorems -/

/-- C8: `calculate_quality` is a pure function of `(rtt, packet_loss)`
returning `excellent` iff `rtt < 50 ∧ loss < 1`, else `good` iff
`rtt < 100 ∧ loss < 3`, else `fair` iff `rtt < 200 ∧ loss < 5`, else
`poor`; boundary values fall into the worse bucket (the comparisons are
strict), and determinism is by construction since the embedding is a
function. -/
theorem quality_classification_characterization (stats : NetworkStats) :
    (calculate_quality stats = .excellent ↔
      (stats.rtt < 50 ∧ flt stats.packet_loss (Frac.ofNat 1))) ∧
    (calculate_quality stats = .good ↔
      (¬(stats.rtt < 50 ∧ flt stats.packet_loss (Frac.ofNat 1)) ∧
        (stats.rtt < 100 ∧ flt stats.packet_loss (Frac.ofNat 3)))) ∧
    (calculate_quality stats = .fair ↔
      (¬(stats.rtt < 50 ∧ flt stats.packet_loss (Frac.ofNat 1)) ∧
        ¬(stats.rtt < 100 ∧ flt stats.packet_loss (Frac.ofNat 3)) ∧
        (stats.rtt < 200 ∧ flt stats.packet_loss (Frac.ofNat 5)))) ∧
    (calculate_quality stats = .poor ↔
      (¬(stats.rtt < 50 ∧ flt stats.packet_loss (Frac.ofNat 1)) ∧
        ¬(stats.rtt < 100 ∧ flt stats.packet_loss (Frac.ofNat 3)) ∧
        ¬(stats.rtt < 200 ∧ flt stats.packet_loss (Frac.ofNat 5)))) := by
  unfold calculate_quality
  split_ifs with h1 h2 h3 <;> simp_all

/-- C10: a failed attempt recorded while a lockout is still active
returns `true` and leaves the tracker entirely unchanged: no new attempt
timestamp and no change to the stored unlock time, so the lockout expires
at its originally installed deadline. -/
theorem lockout_not_extended (cfg : ThreatDetectionConfig)
    (tr : FailedAttemptTracker) (id : String) (now unlockTime : Nat)
    (hbf : cfg.detect_brute_force = true)
    (hlock : lookupA tr.lockouts id = some unlockTime)
    (hnow : now < unlockTime) :
    track_failed_attempt cfg tr id now = (true, tr) := by
  unfold track_failed_attempt
  simp [hbf, hlock, hnow]

/-- Witness for `lockout_not_extended` at a concrete tracker. -/
theorem lockout_not_extended_witness :
    track_failed_attempt ThreatDetectionConfig.default
      ⟨[("u", [5, 6])], [("u", 100)]⟩ "u" 50 =
      (true, ⟨[("u", [5, 6])], [("u", 100)]⟩) :=
  lockout_not_extended ThreatDetectionConfig.default
    ⟨[("u", [5, 6])], [("u", 100)]⟩ "u" 50 100 (by decide) (by decide)
    (by decide)

/-- C2 counterexample: with the default adaptive configuration
(`min_bitrate = 500`), a capturer whose bitrate was set to 400 kbps via
`set_bitrate`, and a sample with 625 kbps of bandwidth (target
`0.8 · 625 = 500`), the 200 kbps dead-band suppresses the update and the
bitrate stays at 400, strictly below `min_bitrate`. -/
theorem adaptive_bitrate_counterexample :
    (adapt_to_network_conditions (set_bitrate CaptureOptions.mkDefault 400)
        AdaptiveBitrateConfig.mkDefault
        ⟨625, ⟨1, 2⟩, 50⟩).bitrate = 400 ∧
    AdaptiveBitrateConfig.mkDefault.min_bitrate = 500 ∧
    ¬(AdaptiveBitrateConfig.mkDefault.min_bitrate ≤
      (adapt_to_network_conditions (set_bitrate CaptureOptions.mkDefault 400)
        AdaptiveBitrateConfig.mkDefault
        ⟨625, ⟨1, 2⟩, 50⟩).bitrate) := by decide

theorem ite_update_frame_rate (c : Prop) [Decidable c] (o1 : CaptureOptions)
    (nf : Nat) (h : ¬c → o1.frame_rate = nf) :
    (if c then { o1 with frame_rate := nf } else o1).frame_rate = nf := by
  split
  · rfl
  · rename_i hc
    exact h hc

theorem ite_update_frame_rate_bitrate (c : Prop) [Decidable c]
    (o1 : CaptureOptions) (nf : Nat) :
    (if c then { o1 with frame_rate := nf } else o1).bitrate = o1.bitrate := by
  split <;> rfl

/-- C2 amended: for any configuration with `min_bitrate ≤ max_bitrate`
and `min_frame_rate ≤ max_frame_rate`, after
`adapt_to_network_conditions` the frame rate always lies in
`[min_frame_rate, max_frame_rate]`, and the bitrate either lies in
`[min_bitrate, max_bitrate]` (when the >200 kbps dead-band lets the
update through) or is left exactly at its previous value; `set_frame_rate`
always stores a value in `[15, 60]`. -/
theorem adaptive_bitrate_amended (o : CaptureOptions)
    (cfg : AdaptiveBitrateConfig) (c : NetworkConditions)
    (hb : cfg.min_bitrate ≤ cfg.max_bitrate)
    (hf : cfg.min_frame_rate ≤ cfg.max_frame_rate) :
    (cfg.min_frame_rate ≤ (adapt_to_network_conditions o cfg c).frame_rate ∧
      (adapt_to_network_conditions o cfg c).frame_rate ≤ cfg.max_frame_rate) ∧
    ((adapt_to_network_conditions o cfg c).bitrate = o.bitrate ∨
      (cfg.min_bitrate ≤ (adapt_to_network_conditions o cfg c).bitrate ∧
        (adapt_to_network_conditions o cfg c).bitrate ≤ cfg.max_bitrate)) ∧
    (∀ o2 fps, 15 ≤ (set_frame_rate o2 fps).frame_rate ∧
      (set_frame_rate o2 fps).frame_rate ≤ 60) := by
  refine ⟨?_, ?_, ?_⟩
  · simp only [adapt_to_network_conditions]
    rw [ite_update_frame_rate _ _ _ (fun hc => not_not.mp hc)]
    exact rclamp_bounds _ cfg.min_frame_rate cfg.max_frame_rate hf
  · simp only [adapt_to_network_conditions]
    rw [ite_update_frame_rate_bitrate]
    split
    · exact Or.inr (rclamp_bounds _ cfg.min_bitrate cfg.max_bitrate hb)
    · exact Or.inl rfl
  · intro o2 fps
    exact rclamp_bounds fps 15 60 (by omega)

/-- Witness for `adaptive_bitrate_amended` at the default configuration
and a concrete sample. -/
theorem adaptive_bitrate_amended_witness :
    (AdaptiveBitrateConfig.mkDefault.min_frame_rate ≤
        (adapt_to_network_conditions CaptureOptions.mkDefault
          AdaptiveBitrateConfig.mkDefault ⟨10000, ⟨1, 2⟩, 50⟩).frame_rate ∧
      (adapt_to_network_conditions CaptureOptions.mkDefault
          AdaptiveBitrateConfig.mkDefault ⟨10000, ⟨1, 2⟩, 50⟩).frame_rate ≤
        AdaptiveBitrateConfig.mkDefault.max_frame_rate) ∧
    ((adapt_to_network_conditions CaptureOptions.mkDefault
          AdaptiveBitrateConfig.mkDefault ⟨10000, ⟨1, 2⟩, 50⟩).bitrate =
        CaptureOptions.mkDefault.bitrate ∨
      (AdaptiveBitrateConfig.mkDefault.min_bitrate ≤
          (adapt_to_network_conditions CaptureOptions.mkDefault
            AdaptiveBitrateConfig.mkDefault ⟨10000, ⟨1, 2⟩, 50⟩).bitrate ∧
        (adapt_to_network_conditions CaptureOptions.mkDefault
            AdaptiveBitrateConfig.mkDefault ⟨10000, ⟨1, 2⟩, 50⟩).bitrate ≤
          AdaptiveBitrateConfig.mkDefault.max_bitrate)) ∧
    (∀ o2 fps, 15 ≤ (set_frame_rate o2 fps).frame_rate ∧
      (set_frame_rate o2 fps).frame_rate ≤ 60) :=
  adaptive_bitrate_amended CaptureOptions.mkDefault
    AdaptiveBitrateConfig.mkDefault ⟨10000, ⟨1, 2⟩, 50⟩ (by decide) (by decide)

/-- C6: a code older than 600 s is invalid, a used code is invalid, and a
fresh unused code is valid; `validate_access_code` returns the stored
record iff it is neither expired nor used; `use_access_code` marks a
valid code used and returns its permission set, and any second use of the
same code returns `none` and leaves the table unchanged. -/
theorem access_code_validity_and_one_shot
    (codes : List (String × AccessCode)) (c : String) (now : Nat)
    (ac : AccessCode) (hl : lookupA codes c = some ac)
    (h600 : ac.expires_in = 600) :
    (600 < now - ac.created_at → validate_access_code codes c now = none) ∧
    (ac.used = true → validate_access_code codes c now = none) ∧
    (now - ac.created_at ≤ 600 → ac.used = false →
      validate_access_code codes c now = some ac) ∧
    (∀ r, validate_access_code codes c now = some r ↔
      (r = ac ∧ ac.isValid now = true)) ∧
    (ac.isValid now = true →
      use_access_code codes c now =
        (some ac.permissions, insertA codes c { ac with used := true }) ∧
      ∀ later, use_access_code (insertA codes c { ac with used := true }) c
          later =
        (none, insertA codes c { ac with used := true })) := by
  refine ⟨?_, ?_, ?_, ?_, ?_⟩
  · intro hold
    have hv : ac.isValid now = false := by
      unfold AccessCode.isValid AccessCode.isExpired
      rw [h600]
      simp [hold]
    simp [validate_access_code, hl, hv]
  · intro hused
    have hv : ac.isValid now = false := by
      unfold AccessCode.isValid
      simp [hused]
    simp [validate_access_code, hl, hv]
  · intro hfresh hunused
    have hv : ac.isValid now = true := by
      unfold AccessCode.isValid AccessCode.isExpired
      rw [h600]
      simp [hunused]
      omega
    simp [validate_access_code, hl, hv]
  · intro r
    by_cases hval : ac.isValid now = true
    · simp only [validate_access_code, hl, hval, if_true]
      constructor
      · intro hv
        injection hv with hv
        exact ⟨hv.symm, trivial⟩
      · rintro ⟨rfl, _⟩
        rfl
    · simp only [validate_access_code, hl, hval, if_false]
      constructor
      · intro hv
        simp at hv
      · rintro ⟨rfl, hc⟩
        simp at hc
  · intro hvalid
    constructor
    · simp [use_access_code, hl, hvalid]
    · intro later
      have hv2 : AccessCode.isValid { ac with used := true } later = false := by
        unfold AccessCode.isValid
        simp
      simp [use_access_code, lookupA_insertA_self, hv2]

/-- Witness for `access_code_validity_and_one_shot` at a concrete table. -/
theorem access_code_validity_witness :
    (600 < 10 - 0 → validate_access_code
        [("123456", ⟨"123456", "dev", 0, 600, [ACPermission.viewScreen], false⟩)]
        "123456" 10 = none) ∧
    ((⟨"123456", "dev", 0, 600, [ACPermission.viewScreen], false⟩ :
        AccessCode).used = true → validate_access_code
        [("123456", ⟨"123456", "dev", 0, 600, [ACPermission.viewScreen], false⟩)]
        "123456" 10 = none) ∧
    (10 - 0 ≤ 600 →
      (⟨"123456", "dev", 0, 600, [ACPermission.viewScreen], false⟩ :
        AccessCode).used = false → validate_access_code
        [("123456", ⟨"123456", "dev", 0, 600, [ACPermission.viewScreen], false⟩)]
        "123456" 10 =
        some ⟨"123456", "dev", 0, 600, [ACPermission.viewScreen], false⟩) ∧
    (∀ r, validate_access_code
        [("123456", ⟨"123456", "dev", 0, 600, [ACPermission.viewScreen], false⟩)]
        "123456" 10 = some r ↔
      (r = ⟨"123456", "dev", 0, 600, [ACPermission.viewScreen], false⟩ ∧
        AccessCode.isValid
          ⟨"123456", "dev", 0, 600, [ACPermission.viewScreen], false⟩ 10 =
          true)) ∧
    (AccessCode.isValid
        ⟨"123456", "dev", 0, 600, [ACPermission.viewScreen], false⟩ 10 = true →
      use_access_code
          [("123456", ⟨"123456", "dev", 0, 600, [ACPermission.viewScreen], false⟩)]
          "123456" 10 =
        (some [ACPermission.viewScreen],
          insertA
            [("123456", ⟨"123456", "dev", 0, 600, [ACPermission.viewScreen], false⟩)]
            "123456" ⟨"123456", "dev", 0, 600, [ACPermission.viewScreen], true⟩) ∧
      ∀ later, use_access_code
          (insertA
            [("123456", ⟨"123456", "dev", 0, 600, [ACPermission.viewScreen], false⟩)]
            "123456" ⟨"123456", "dev", 0, 600, [ACPermission.viewScreen], true⟩)
          "123456" later =
        (none,
          insertA
            [("123456", ⟨"123456", "dev", 0, 600, [ACPermission.viewScreen], false⟩)]
            "123456" ⟨"123456", "dev", 0, 600, [ACPermission.viewScreen], true⟩)) :=
  access_code_validity_and_one_shot
    [("123456", ⟨"123456", "dev", 0, 600, [ACPermission.viewScreen], false⟩)]
    "123456" 10 ⟨"123456", "dev", 0, 600, [ACPermission.viewScreen], false⟩
    (by decide) (by decide)

/-- C7: once the attempt window holds `max_failed_attempts` attempts
(counting the new one), `track_failed_attempt` returns `true`, installs a
lockout until `now + lockout_duration_secs` and clears the attempt
window; `is_locked_out` is `true` exactly until that unlock time; and
`clear_failed_attempts` removes both the window and the lockout. -/
theorem brute_force_lockout (cfg : ThreatDetectionConfig)
    (tr : FailedAttemptTracker) (id : String) (now : Nat)
    (hbf : cfg.detect_brute_force = true)
    (hnolock : ∀ u, lookupA tr.lockouts id = some u → u ≤ now)
    (hndl : (tr.lockouts.map Prod.fst).Nodup)
    (hnda : (tr.attempts.map Prod.fst).Nodup)
    (hthresh : cfg.max_failed_attempts ≤
      (((lookupA tr.attempts id).getD []).filter
        (fun t => now - cfg.attempt_window_secs < t)).length + 1) :
    ∃ tr', track_failed_attempt cfg tr id now = (true, tr') ∧
      lookupA tr'.lockouts id = some (now + cfg.lockout_duration_secs) ∧
      lookupA tr'.attempts id = some [] ∧
      (∀ t, is_locked_out tr' id t = true ↔
        t < now + cfg.lockout_duration_secs) ∧
      (lookupA (clear_failed_attempts tr' id).attempts id = none ∧
        lookupA (clear_failed_attempts tr' id).lockouts id = none ∧
        ∀ t, is_locked_out (clear_failed_attempts tr' id) id t = false) := by
  have hmain : ∀ tr1 : FailedAttemptTracker,
      tr1.attempts = tr.attempts →
      (tr1.lockouts.map Prod.fst).Nodup →
      ∃ tr', (let prev := (lookupA tr1.attempts id).getD []
              let windowStart := now - cfg.attempt_window_secs
              let kept := prev.filter fun t => windowStart < t
              let appended := kept ++ [now]
              if cfg.max_failed_attempts ≤ appended.length then
                ((true : Bool),
                  ({ attempts := insertA tr1.attempts id []
                     lockouts := insertA tr1.lockouts id
                       (now + cfg.lockout_duration_secs) } :
                    FailedAttemptTracker))
              else (false, { tr1 with attempts := insertA tr1.attempts id appended })) =
            (true, tr') ∧
        lookupA tr'.lockouts id = some (now + cfg.lockout_duration_secs) ∧
        lookupA tr'.attempts id = some [] ∧
        (∀ t, is_locked_out tr' id t = true ↔
          t < now + cfg.lockout_duration_secs) ∧
        (lookupA (clear_failed_attempts tr' id).attempts id = none ∧
          lookupA (clear_failed_attempts tr' id).lockouts id = none ∧
          ∀ t, is_locked_out (clear_failed_attempts tr' id) id t = false) := by
    intro tr1 hatt hnd1
    refine ⟨{ attempts := insertA tr1.attempts id []
              lockouts := insertA tr1.lockouts id
                (now + cfg.lockout_duration_secs) }, ?_, ?_, ?_, ?_, ?_⟩
    · have hcond : cfg.max_failed_attempts ≤
          ((((lookupA tr1.attempts id).getD []).filter
            (fun t => now - cfg.attempt_window_secs < t)) ++ [now]).length := by
        rw [hatt, List.length_append]
        simpa using hthresh
      simp only [hcond, if_true]
    · exact lookupA_insertA_self _ _ _
    · exact lookupA_insertA_self _ _ _
    · intro t
      unfold is_locked_out
      rw [lookupA_insertA_self]
      simp
    · refine ⟨?_, ?_, ?_⟩
      · unfold clear_failed_attempts
        exact lookupA_removeA_self _ _ (nodup_insertA _ _ (hatt ▸ hnda))
      · unfold clear_failed_attempts
        exact lookupA_removeA_self _ _ (nodup_insertA _ _ hnd1)
      · intro t
        unfold is_locked_out clear_failed_attempts
        rw [lookupA_removeA_self _ _ (nodup_insertA _ _ hnd1)]
  unfold track_failed_attempt
  rw [hbf]
  simp only [Bool.not_true, Bool.false_eq_true, if_false]
  cases hlk : lookupA tr.lockouts id with
  | none =>
    simpa using hmain tr rfl hndl
  | some u =>
    have hu : u ≤ now := hnolock u hlk
    have hnotlt : ¬ now < u := by omega
    simp only [hnotlt, if_false]
    simpa using hmain { tr with lockouts := removeA tr.lockouts id } rfl
      (nodup_removeA _ hndl)

/-- Witness for `brute_force_lockout`: four prior attempts inside the
window, the fifth locks the identifier under the default configuration. -/
theorem brute_force_lockout_witness :
    ∃ tr', track_failed_attempt ThreatDetectionConfig.default
        ⟨[("u", [10, 20, 30, 40])], []⟩ "u" 60 = (true, tr') ∧
      lookupA tr'.lockouts "u" = some (60 + 300) ∧
      lookupA tr'.attempts "u" = some [] ∧
      (∀ t, is_locked_out tr' "u" t = true ↔ t < 60 + 300) ∧
      (lookupA (clear_failed_attempts tr' "u").attempts "u" = none ∧
        lookupA (clear_failed_attempts tr' "u").lockouts "u" = none ∧
        ∀ t, is_locked_out (clear_failed_attempts tr' "u") "u" t = false) :=
  brute_force_lockout ThreatDetectionConfig.default
    ⟨[("u", [10, 20, 30, 40])], []⟩ "u" 60 (by decide)
    (by intro u h; simp [lookupA] at h) (by simp) (by simp [lookupA])
    (by decide)

/-- C9: `grant_permission` on an expired pending request returns the
`expired` error but has already removed the request, so a second call
with the same request id returns `not-found`, and the request no longer
appears in `get_pending_requests`. -/
theorem grant_permission_expired_not_atomic (st : SMState) (rid : String)
    (req : PermissionRequest) (now : Nat) (g g2 : Bool)
    (hl : lookupA st.pending_requests rid = some req)
    (hexp : req.expires_at < now)
    (hnd : (st.pending_requests.map Prod.fst).Nodup)
    (hkeys : ∀ p, p ∈ st.pending_requests → (p.2).request_id = p.1) :
    ∃ st', grant_permission st rid g now = (.expired, st') ∧
      lookupA st'.pending_requests rid = none ∧
      (∀ now2, grant_permission st' rid g2 now2 = (.notFound, st')) ∧
      (∀ tnow, req ∉ get_pending_requests st' tnow) := by
  refine ⟨{ st with pending_requests := removeA st.pending_requests rid },
    ?_, ?_, ?_, ?_⟩
  · unfold grant_permission
    rw [hl]
    have hex : req.isExpired now = true := by
      unfold PermissionRequest.isExpired
      simpa using hexp
    simp [hex]
  · exact lookupA_removeA_self _ _ hnd
  · intro now2
    unfold grant_permission
    rw [lookupA_removeA_self _ _ hnd]
  · intro tnow hmem
    unfold get_pending_requests at hmem
    have hmem2 : req ∈ (removeA st.pending_requests rid).map Prod.snd :=
      List.mem_of_mem_filter hmem
    simp only [List.mem_map] at hmem2
    obtain ⟨p, hp, hsnd⟩ := hmem2
    have hid : req.request_id = rid := hkeys (rid, req) (lookupA_mem hl)
    have hkp : (p.2).request_id = p.1 := hkeys p (mem_removeA hp)
    have hp1 : p.1 = rid := by
      rw [← hkp, hsnd]
      exact hid
    exact fst_ne_of_mem_removeA hnd hp hp1

/-- Witness for `grant_permission_expired_not_atomic` at a concrete
expired request. -/
theorem grant_permission_expired_witness :
    ∃ st', grant_permission
        ⟨[], [], [("r1", PermissionRequest.mkNew "r1" "a" "b" [] 0)], 30⟩
        "r1" true 1000 = (.expired, st') ∧
      lookupA st'.pending_requests "r1" = none ∧
      (∀ now2, grant_permission st' "r1" false now2 = (.notFound, st')) ∧
      (∀ tnow, PermissionRequest.mkNew "r1" "a" "b" [] 0 ∉
        get_pending_requests st' tnow) :=
  grant_permission_expired_not_atomic
    ⟨[], [], [("r1", PermissionRequest.mkNew "r1" "a" "b" [] 0)], 30⟩
    "r1" (PermissionRequest.mkNew "r1" "a" "b" [] 0) 1000 true false
    (by decide) (by decide) (by simp)
    (by intro p hp; simp at hp; rw [hp]; rfl)

/-- C4 counterexample: a nonce first presented at `t = 299` (accepted) and
presented again at `t = 301` — 2 seconds later, well inside the 300 s
retention window — is accepted again, because the expiry sweep clears the
*entire* nonce set once the sweep epoch (here the session-creation instant
0) is older than the window. -/
theorem replay_detection_counterexample :
    ((detect_replay_attack ThreatDetectionConfig.default
        [("s", ReplayDetectionState.mkDefault 0)] "s" [1] 299).1 = false) ∧
    ((detect_replay_attack ThreatDetectionConfig.default
        (detect_replay_attack ThreatDetectionConfig.default
          [("s", ReplayDetectionState.mkDefault 0)] "s" [1] 299).2
        "s" [1] 301).1 = false) ∧
    (301 - 299 ≤ 300) := by decide

/-- Characterization of the per-state replay check. -/
theorem detect_replay_attack_state_spec (st : ReplayDetectionState)
    (nonce : List Nat) (now : Nat) :
    (st.seen_nonces.contains nonce = false →
      (detect_replay_attack_state st nonce now).1 = false) ∧
    (st.seen_nonces.contains nonce = true →
      now - st.oldest_nonce_time ≤ st.nonce_expiration_secs →
      detect_replay_attack_state st nonce now = (true, st)) ∧
    (st.nonce_expiration_secs < now - st.oldest_nonce_time →
      (detect_replay_attack_state st nonce now).2 =
        { st with seen_nonces := [nonce], oldest_nonce_time := now }) ∧
    (now - st.oldest_nonce_time ≤ st.nonce_expiration_secs →
      st.seen_nonces.contains nonce = false →
      st.seen_nonces.length < st.max_nonces →
      (detect_replay_attack_state st nonce now).2 =
        { st with seen_nonces := st.seen_nonces ++ [nonce] }) ∧
    (now - st.oldest_nonce_time ≤ st.nonce_expiration_secs →
      st.seen_nonces.contains nonce = false →
      st.max_nonces ≤ st.seen_nonces.length →
      (detect_replay_attack_state st nonce now).2 =
        { st with seen_nonces :=
          st.seen_nonces.drop (st.max_nonces / 2) ++ [nonce] }) := by
  refine ⟨?_, ?_, ?_, ?_, ?_⟩
  · intro hseen
    have hni : nonce ∉ st.seen_nonces := by simpa using hseen
    by_cases hs : st.nonce_expiration_secs < now - st.oldest_nonce_time
    · simp [detect_replay_attack_state, if_pos hs]
    · simp [detect_replay_attack_state, if_neg hs, hni]
  · intro hc hnoexp
    have hin : nonce ∈ st.seen_nonces := by simpa using hc
    have hs : ¬ st.nonce_expiration_secs < now - st.oldest_nonce_time := by
      omega
    simp [detect_replay_attack_state, if_neg hs, hin]
  · intro hs
    simp [detect_replay_attack_state, if_pos hs]
  · intro hnoexp hc hlen
    have hni : nonce ∉ st.seen_nonces := by simpa using hc
    have hs : ¬ st.nonce_expiration_secs < now - st.oldest_nonce_time := by
      omega
    have hm : ¬ st.max_nonces ≤ st.seen_nonces.length := by omega
    simp [detect_replay_attack_state, if_neg hs, hni, if_neg hm]
  · intro hnoexp hc hlen
    have hni : nonce ∉ st.seen_nonces := by simpa using hc
    have hs : ¬ st.nonce_expiration_secs < now - st.oldest_nonce_time := by
      omega
    simp [detect_replay_attack_state, if_neg hs, hni, if_pos hlen]

/-- C4 amended: the first presentation of a nonce is accepted and any
repeat is rejected *provided the expiry sweep has not intervened*; the
sweep does not remove only old nonces — whenever the time since the sweep
epoch exceeds the window it clears the whole set and restarts the epoch
with only the incoming nonce; when the set is full, half of the stored
nonces (in set-iteration order) is dropped before inserting. -/
theorem replay_detection_amended (cfg : ThreatDetectionConfig)
    (m : List (String × ReplayDetectionState)) (sid : String)
    (st : ReplayDetectionState) (nonce : List Nat) (now : Nat)
    (hdet : cfg.detect_replay_attacks = true)
    (hl : lookupA m sid = some st) :
    (st.seen_nonces.contains nonce = false →
      (detect_replay_attack cfg m sid nonce now).1 = false) ∧
    (st.seen_nonces.contains nonce = true →
      now - st.oldest_nonce_time ≤ st.nonce_expiration_secs →
      (detect_replay_attack cfg m sid nonce now).1 = true) ∧
    (st.nonce_expiration_secs < now - st.oldest_nonce_time →
      lookupA (detect_replay_attack cfg m sid nonce now).2 sid =
        some { st with seen_nonces := [nonce], oldest_nonce_time := now }) ∧
    (now - st.oldest_nonce_time ≤ st.nonce_expiration_secs →
      st.seen_nonces.contains nonce = false →
      st.seen_nonces.length < st.max_nonces →
      lookupA (detect_replay_attack cfg m sid nonce now).2 sid =
        some { st with seen_nonces := st.seen_nonces ++ [nonce] }) ∧
    (now - st.oldest_nonce_time ≤ st.nonce_expiration_secs →
      st.seen_nonces.contains nonce = false →
      st.max_nonces ≤ st.seen_nonces.length →
      lookupA (detect_replay_attack cfg m sid nonce now).2 sid =
        some { st with seen_nonces :=
          st.seen_nonces.drop (st.max_nonces / 2) ++ [nonce] }) := by
  have h := detect_replay_attack_state_spec st nonce now
  unfold detect_replay_attack
  rw [hdet]
  simp only [Bool.not_true, Bool.false_eq_true, if_false, hl, Option.getD_some]
  refine ⟨?_, ?_, ?_, ?_, ?_⟩
  · intro hseen
    simpa using h.1 hseen
  · intro hseen hnoexp
    have := h.2.1 hseen hnoexp
    simp [this]
  · intro hexp
    rw [lookupA_insertA_self, h.2.2.1 hexp]
  · intro hnoexp hseen hlen
    rw [lookupA_insertA_self, h.2.2.2.1 hnoexp hseen hlen]
  · intro hnoexp hseen hlen
    rw [lookupA_insertA_self, h.2.2.2.2 hnoexp hseen hlen]

/-- Witness for `replay_detection_amended` at a concrete replay map. -/
theorem replay_detection_amended_witness :
    ((ReplayDetectionState.mk [[2]] 100000 0 300).seen_nonces.contains [1] =
        false →
      (detect_replay_attack ThreatDetectionConfig.default
        [("s", ReplayDetectionState.mk [[2]] 100000 0 300)] "s" [1] 10).1 =
        false) ∧
    ((ReplayDetectionState.mk [[2]] 100000 0 300).seen_nonces.contains [1] =
        true →
      10 - (ReplayDetectionState.mk [[2]] 100000 0 300).oldest_nonce_time ≤
        (ReplayDetectionState.mk [[2]] 100000 0 300).nonce_expiration_secs →
      (detect_replay_attack ThreatDetectionConfig.default
        [("s", ReplayDetectionState.mk [[2]] 100000 0 300)] "s" [1] 10).1 =
        true) ∧
    ((ReplayDetectionState.mk [[2]] 100000 0 300).nonce_expiration_secs <
        10 - (ReplayDetectionState.mk [[2]] 100000 0 300).oldest_nonce_time →
      lookupA (detect_replay_attack ThreatDetectionConfig.default
          [("s", ReplayDetectionState.mk [[2]] 100000 0 300)] "s" [1] 10).2
          "s" =
        some { ReplayDetectionState.mk [[2]] 100000 0 300 with
          seen_nonces := [[1]], oldest_nonce_time := 10 }) ∧
    (10 - (ReplayDetectionState.mk [[2]] 100000 0 300).oldest_nonce_time ≤
        (ReplayDetectionState.mk [[2]] 100000 0 300).nonce_expiration_secs →
      (ReplayDetectionState.mk [[2]] 100000 0 300).seen_nonces.contains [1] =
        false →
      (ReplayDetectionState.mk [[2]] 100000 0 300).seen_nonces.length <
        (ReplayDetectionState.mk [[2]] 100000 0 300).max_nonces →
      lookupA (detect_replay_attack ThreatDetectionConfig.default
          [("s", ReplayDetectionState.mk [[2]] 100000 0 300)] "s" [1] 10).2
          "s" =
        some { ReplayDetectionState.mk [[2]] 100000 0 300 with
          seen_nonces := [[2]] ++ [[1]] }) ∧
    (10 - (ReplayDetectionState.mk [[2]] 100000 0 300).oldest_nonce_time ≤
        (ReplayDetectionState.mk [[2]] 100000 0 300).nonce_expiration_secs →
      (ReplayDetectionState.mk [[2]] 100000 0 300).seen_nonces.contains [1] =
        false →
      (ReplayDetectionState.mk [[2]] 100000 0 300).max_nonces ≤
        (ReplayDetectionState.mk [[2]] 100000 0 300).seen_nonces.length →
      lookupA (detect_replay_attack ThreatDetectionConfig.default
          [("s", ReplayDetectionState.mk [[2]] 100000 0 300)] "s" [1] 10).2
          "s" =
        some { ReplayDetectionState.mk [[2]] 100000 0 300 with
          seen_nonces :=
            ([[2]] : List (List Nat)).drop (100000 / 2) ++ [[1]] }) :=
  replay_detection_amended ThreatDetectionConfig.default
    [("s", ReplayDetectionState.mk [[2]] 100000 0 300)] "s"
    (ReplayDetectionState.mk [[2]] 100000 0 300) [1] 10 (by decide)
    (by decide)

/-- Modelled from the claim's words: the status DAG
`pending→active↔paused→ended, pending→failed, active→failed`. -/
def claimedStatusDAG : List (SessionStatus × SessionStatus) :=
  [(.pending, .active), (.active, .paused), (.paused, .active),
   (.paused, .ended), (.pending, .failed), (.active, .failed)]

/-- The transitions the code can actually perform: `join`/`resume` set
`active` from any stored status, `pause` sets `paused` from any stored
status (including `pending`), `end` sets `ended` from any stored status;
`failed` is never assigned by any operation. -/
def amendedStatusDAG : List (SessionStatus × SessionStatus) :=
  [(.pending, .active), (.active, .paused), (.paused, .active),
   (.paused, .ended), (.active, .ended), (.pending, .ended),
   (.pending, .paused)]

/-- States reachable through the `SessionManager` operations. -/
inductive ReachableSM : SMState → Prop where
  | init : ReachableSM SMState.mkNew
  | create (st : SMState) (localId remoteId : String)
      (perms : List SMPermission) (sid : String) (now : Nat) :
      ReachableSM st →
      ReachableSM (create_session st localId remoteId perms sid now).2
  | join (st : SMState) (sid : String) (s : Session) (st' : SMState) :
      ReachableSM st → join_session st sid = some (s, st') → ReachableSM st'
  | pause (st : SMState) (sid : String) (st' : SMState) :
      ReachableSM st → pause_session st sid = some st' → ReachableSM st'
  | resume (st : SMState) (sid : String) (st' : SMState) :
      ReachableSM st → resume_session st sid = some st' → ReachableSM st'
  | endSession (st : SMState) (sid : String) (reason : EndReason) (now : Nat)
      (r : SessionRecord) (st' : SMState) :
      ReachableSM st → end_session st sid reason now = some (r, st') →
      ReachableSM st'
  | request (st : SMState) (localId remoteId : String)
      (perms : List SMPermission) (rid : String) (now : Nat) :
      ReachableSM st →
      ReachableSM (request_permission st localId remoteId perms rid now).2
  | grant (st : SMState) (rid : String) (g : Bool) (now : Nat) :
      ReachableSM st → ReachableSM (grant_permission st rid g now).2

/-- Invariant of the stored sessions: distinct keys, no end timestamp,
and a status among `pending`/`active`/`paused` (ended sessions are
removed, `failed` is never assigned). -/
def sessionsWellFormed (st : SMState) : Prop :=
  (st.sessions.map Prod.fst).Nodup ∧
  ∀ sid s, lookupA st.sessions sid = some s →
    s.end_time = none ∧
    (s.status = .pending ∨ s.status = .active ∨ s.status = .paused)

theorem reachable_wellFormed (st : SMState) (h : ReachableSM st) :
    sessionsWellFormed st := by
  induction h with
  | init =>
    refine ⟨by simp [SMState.mkNew], ?_⟩
    intro sid s hl
    simp [SMState.mkNew, lookupA] at hl
  | create st localId remoteId perms sid now hr ih =>
    refine ⟨nodup_insertA _ _ ih.1, ?_⟩
    intro sid' s' hl
    simp only [create_session] at hl
    rcases lookupA_insertA_cases hl with ⟨_, rfl⟩ | ⟨_, hl'⟩
    · exact ⟨rfl, Or.inl rfl⟩
    · exact ih.2 _ _ hl'
  | join st sid s st' hr hj ih =>
    unfold join_session at hj
    cases hls : lookupA st.sessions sid with
    | none => rw [hls] at hj; simp at hj
    | some s0 =>
      rw [hls] at hj
      simp only [Option.some.injEq, Prod.mk.injEq] at hj
      obtain ⟨_, hst'⟩ := hj
      subst hst'
      refine ⟨nodup_insertA _ _ ih.1, ?_⟩
      intro sid' s' hl
      rcases lookupA_insertA_cases hl with ⟨_, rfl⟩ | ⟨_, hl'⟩
      · exact ⟨(ih.2 sid s0 hls).1, Or.inr (Or.inl rfl)⟩
      · exact ih.2 _ _ hl'
  | pause st sid st' hr hp ih =>
    unfold pause_session at hp
    cases hls : lookupA st.sessions sid with
    | none => rw [hls] at hp; simp at hp
    | some s0 =>
      rw [hls] at hp
      simp only [Option.some.injEq] at hp
      subst hp
      refine ⟨nodup_insertA _ _ ih.1, ?_⟩
      intro sid' s' hl
      rcases lookupA_insertA_cases hl with ⟨_, rfl⟩ | ⟨_, hl'⟩
      · exact ⟨(ih.2 sid s0 hls).1, Or.inr (Or.inr rfl)⟩
      · exact ih.2 _ _ hl'
  | resume st sid st' hr hp ih =>
    unfold resume_session at hp
    cases hls : lookupA st.sessions sid with
    | none => rw [hls] at hp; simp at hp
    | some s0 =>
      rw [hls] at hp
      simp only [Option.some.injEq] at hp
      subst hp
      refine ⟨nodup_insertA _ _ ih.1, ?_⟩
      intro sid' s' hl
      rcases lookupA_insertA_cases hl with ⟨_, rfl⟩ | ⟨_, hl'⟩
      · exact ⟨(ih.2 sid s0 hls).1, Or.inr (Or.inl rfl)⟩
      · exact ih.2 _ _ hl'
  | endSession st sid reason now r st' hr he ih =>
    unfold end_session at he
    cases hls : lookupA st.sessions sid with
    | none => rw [hls] at he; simp at he
    | some s0 =>
      rw [hls] at he
      simp only [Option.some.injEq, Prod.mk.injEq] at he
      obtain ⟨_, hst'⟩ := he
      subst hst'
      refine ⟨nodup_removeA _ ih.1, ?_⟩
      intro sid' s' hl
      by_cases hq : sid' = sid
      · subst hq
        rw [lookupA_removeA_self _ _ ih.1] at hl
        simp at hl
      · rw [lookupA_removeA_ne _ _ _ (fun hc => hq hc.symm)] at hl
        exact ih.2 _ _ hl
  | request st localId remoteId perms rid now hr ih =>
    exact ih
  | grant st rid g now hr ih =>
    cases hlp : lookupA st.pending_requests rid with
    | none => simp only [grant_permission, hlp]; exact ih
    | some req =>
      simp only [grant_permission, hlp]
      split <;> exact ih

/-- C3 amended: in every reachable manager state, stored sessions have no
end timestamp and a status that is never `ended` or `failed` (the end
timestamp is recorded exactly when `end_session` sets the status to
`ended` and removes the session), and every status-changing transition
performed by `join_session`, `pause_session`, `resume_session`,
`end_session` is an edge of `amendedStatusDAG`, which is
`claimedStatusDAG` without the (never-taken) `failed` edges plus the
extra edges `pending→paused`, `pending→ended`, `active→ended` that the
code actually performs. -/
theorem session_state_machine_amended (st : SMState) (h : ReachableSM st) :
    (∀ sid s, lookupA st.sessions sid = some s →
      s.end_time = none ∧ s.status ≠ .ended ∧ s.status ≠ .failed) ∧
    (∀ sid st' s, pause_session st sid = some st' →
      lookupA st.sessions sid = some s → s.status ≠ .paused →
      (s.status, SessionStatus.paused) ∈ amendedStatusDAG) ∧
    (∀ sid s' st1 s, join_session st sid = some (s', st1) →
      lookupA st.sessions sid = some s → s.status ≠ .active →
      (s.status, SessionStatus.active) ∈ amendedStatusDAG) ∧
    (∀ sid st' s, resume_session st sid = some st' →
      lookupA st.sessions sid = some s → s.status ≠ .active →
      (s.status, SessionStatus.active) ∈ amendedStatusDAG) ∧
    (∀ sid reason now r st1 s, end_session st sid reason now = some (r, st1) →
      lookupA st.sessions sid = some s →
      (s.status, SessionStatus.ended) ∈ amendedStatusDAG ∧
        r.end_time = now ∧ lookupA st1.sessions sid = none) := by
  have hw := reachable_wellFormed st h
  refine ⟨?_, ?_, ?_, ?_, ?_⟩
  · intro sid s hl
    have hs := hw.2 sid s hl
    refine ⟨hs.1, ?_, ?_⟩ <;>
      rcases hs.2 with h1 | h1 | h1 <;> simp [h1]
  · intro sid st' s _ hl hne
    have hs := hw.2 sid s hl
    rcases hs.2 with h1 | h1 | h1
    · rw [h1]; decide
    · rw [h1]; decide
    · exact absurd h1 hne
  · intro sid s' st1 s _ hl hne
    have hs := hw.2 sid s hl
    rcases hs.2 with h1 | h1 | h1
    · rw [h1]; decide
    · exact absurd h1 hne
    · rw [h1]; decide
  · intro sid st' s _ hl hne
    have hs := hw.2 sid s hl
    rcases hs.2 with h1 | h1 | h1
    · rw [h1]; decide
    · exact absurd h1 hne
    · rw [h1]; decide
  · intro sid reason now r st1 s he hl
    have hs := hw.2 sid s hl
    refine ⟨?_, ?_⟩
    · rcases hs.2 with h1 | h1 | h1 <;> (rw [h1]; decide)
    · unfold end_session at he
      rw [hl] at he
      simp only [Option.some.injEq, Prod.mk.injEq] at he
      obtain ⟨hre, hst1⟩ := he
      subst hst1
      constructor
      · rw [← hre]
      · exact lookupA_removeA_self _ _ hw.1

/-- Witness for `session_state_machine_amended` at the empty manager. -/
theorem session_state_machine_amended_witness :
    (∀ sid s, lookupA SMState.mkNew.sessions sid = some s →
      s.end_time = none ∧ s.status ≠ .ended ∧ s.status ≠ .failed) ∧
    (∀ sid st' s, pause_session SMState.mkNew sid = some st' →
      lookupA SMState.mkNew.sessions sid = some s → s.status ≠ .paused →
      (s.status, SessionStatus.paused) ∈ amendedStatusDAG) ∧
    (∀ sid s' st1 s, join_session SMState.mkNew sid = some (s', st1) →
      lookupA SMState.mkNew.sessions sid = some s → s.status ≠ .active →
      (s.status, SessionStatus.active) ∈ amendedStatusDAG) ∧
    (∀ sid st' s, resume_session SMState.mkNew sid = some st' →
      lookupA SMState.mkNew.sessions sid = some s → s.status ≠ .active →
      (s.status, SessionStatus.active) ∈ amendedStatusDAG) ∧
    (∀ sid reason now r st1 s,
      end_session SMState.mkNew sid reason now = some (r, st1) →
      lookupA SMState.mkNew.sessions sid = some s →
      (s.status, SessionStatus.ended) ∈ amendedStatusDAG ∧
        r.end_time = now ∧ lookupA st1.sessions sid = none) :=
  session_state_machine_amended SMState.mkNew ReachableSM.init

/-- C3 counterexample: `pause_session` on a freshly created session (still
`pending`) succeeds and moves it to `paused`, an edge that is not in the
claimed DAG (pause is not only taken from `active`). -/
theorem session_pause_from_pending_counterexample :
    (lookupA (create_session SMState.mkNew "a" "b" [] "sid" 0).2.sessions
        "sid").map Session.status = some SessionStatus.pending ∧
    ((pause_session (create_session SMState.mkNew "a" "b" [] "sid" 0).2
          "sid").bind
        (fun st2 => lookupA st2.sessions "sid")).map Session.status =
      some SessionStatus.paused ∧
    (SessionStatus.pending, SessionStatus.paused) ∉ claimedStatusDAG := by
  decide

/-- C5 amended: for every plaintext, 32-byte key and 12-byte nonce draw,
the envelope produced by `encrypt_with_aes_gcm` has a 12-byte nonce and a
16-byte tag, and `decrypt_with_aes_gcm` with the same key returns the
original plaintext.  (The claim's remaining clause — ciphertext ≠
plaintext for non-empty input — is *not* guaranteed for every nonce draw;
see the counterexample.) -/
theorem encryption_roundtrip_amended (key data nonce : List Nat)
    (kid : String) (hk : key.length = 32) (hn : nonce.length = 12) :
    ∃ e, encrypt_with_aes_gcm key data kid nonce = some e ∧
      e.nonce.length = 12 ∧ e.tag.length = 16 ∧
      decrypt_with_aes_gcm key e = some data := by
  have hk' : ¬ key.length ≠ 32 := by rw [hk]; simp
  refine ⟨{ ciphertext := (aeadEncrypt key nonce data).take
              ((aeadEncrypt key nonce data).length - 16)
            nonce := nonce
            tag := (aeadEncrypt key nonce data).drop
              ((aeadEncrypt key nonce data).length - 16)
            algorithm := .aes256Gcm
            key_id := kid }, ?_, ?_, ?_, ?_⟩
  · unfold encrypt_with_aes_gcm
    rw [if_neg hk']
  · exact hn
  · show ((aeadEncrypt key nonce data).drop
      ((aeadEncrypt key nonce data).length - 16)).length = 16
    have hlen : (aeadEncrypt key nonce data).length =
        (gcmCipher key nonce data).length + 16 := by
      unfold aeadEncrypt
      simp
    rw [List.length_drop, hlen]
    omega
  · unfold decrypt_with_aes_gcm
    rw [if_neg hk', if_neg (by rw [hn]; simp)]
    simp only [List.take_append_drop]
    exact aeadDecrypt_aeadEncrypt key nonce data

/-- Witness for `encryption_roundtrip_amended` at a concrete key, nonce
and plaintext. -/
theorem encryption_roundtrip_witness :
    ∃ e, encrypt_with_aes_gcm (List.replicate 32 0) [1, 2]
        "s" (List.replicate 12 0) = some e ∧
      e.nonce.length = 12 ∧ e.tag.length = 16 ∧
      decrypt_with_aes_gcm (List.replicate 32 0) e = some [1, 2] :=
  encryption_roundtrip_amended (List.replicate 32 0) [1, 2]
    (List.replicate 12 0) "s" (by decide) (by decide)

set_option maxRecDepth 400000 in
/-- C5 counterexample: under the all-zero key and the nonce
`0…0‖35`, the first AES-CTR keystream byte is zero, so the one-byte
plaintext `[171]` encrypts to a ciphertext *equal* to the plaintext —
"ciphertext ≠ plaintext for non-empty input" does not hold for every
nonce draw. -/
theorem ciphertext_eq_plaintext_counterexample :
    (encrypt_with_aes_gcm (List.replicate 32 0) [171] "s"
        [0, 0, 0, 0, 0, 0, 0, 0, 0, 0, 0, 35]).map EncryptedData.ciphertext =
      some [171] ∧
    ([171] : List Nat) ≠ [] := by decide

set_option maxRecDepth 400000 in
/-- C1: the grace-period machinery stores the superseded key
(`rotate_session_key` keeps it in `old_session_keys` until
`now + grace_period_secs`), but `decrypt_media_stream` only ever consults
the *current* key in `session_keys`: an envelope encrypted before the
rotation decrypts fine before the rotation and fails immediately after
it, even though the old key is still inside its grace window. -/
theorem rotation_grace_decrypt_behavior :
    rotate_session_key KeyRotationConfig.default
        ⟨[("s", ⟨List.replicate 32 0, 0, 0, .aes256Gcm, 0, 3600, true⟩)], []⟩
        "s" (List.replicate 32 1) 10 =
      some (⟨List.replicate 32 1, 0, 1, .aes256Gcm, 10, 3600, true⟩,
        ⟨[("s", ⟨List.replicate 32 1, 0, 1, .aes256Gcm, 10, 3600, true⟩)],
         [("s", [(⟨List.replicate 32 0, 0, 0, .aes256Gcm, 0, 3600, true⟩,
            70)])]⟩) ∧
    lookupA
        (⟨[("s", ⟨List.replicate 32 1, 0, 1, .aes256Gcm, 10, 3600, true⟩)],
          [("s", [(⟨List.replicate 32 0, 0, 0, .aes256Gcm, 0, 3600, true⟩,
            70)])]⟩ : SessionKeyStore).old_session_keys "s" =
      some [(⟨List.replicate 32 0, 0, 0, .aes256Gcm, 0, 3600, true⟩, 70)] ∧
    ((encrypt_media_stream true
        ⟨[("s", ⟨List.replicate 32 0, 0, 0, .aes256Gcm, 0, 3600, true⟩)], []⟩
        "s" [1, 2, 3] [0, 0, 0, 0, 0, 0, 0, 0, 0, 0, 0, 1]).bind
      (decrypt_media_stream true
        ⟨[("s", ⟨List.replicate 32 0, 0, 0, .aes256Gcm, 0, 3600, true⟩)], []⟩
        "s")) = some [1, 2, 3] ∧
    ((encrypt_media_stream true
        ⟨[("s", ⟨List.replicate 32 0, 0, 0, .aes256Gcm, 0, 3600, true⟩)], []⟩
        "s" [1, 2, 3] [0, 0, 0, 0, 0, 0, 0, 0, 0, 0, 0, 1]).bind
      (decrypt_media_stream true
        ⟨[("s", ⟨List.replicate 32 1, 0, 1, .aes256Gcm, 10, 3600, true⟩)],
          [("s", [(⟨List.replicate 32 0, 0, 0, .aes256Gcm, 0, 3600, true⟩,
            70)])]⟩
        "s")) = none := by decide

end Cecdesk
